import Mathlib

/-!
Verification development for the karma compiler (Rust sources:
src/lexer.rs, src/parser.rs, src/source.rs).  The Rust code is embedded
shallowly: Rust `String` values are modelled as `List Char`, `u8` bytes as
`Nat`, `i32`/`u32` as `Int`/`Nat` with explicit range behaviour where the
source can overflow, `HashMap`/`HashSet` as association lists (the source
only relies on map iteration order in ways that the individual claims do
not observe; where a claim could observe it, this is noted), and Rust
panics (`expect`, `unwrap`, indexing a missing key) as explicit error
constructors.  Loops are translated as fuel-indexed structural recursions;
fuel exhaustion is a distinguished outcome so that theorems stated at a
definite fuel are exact statements about the Rust loop.
-/

/-- Rust `String` is modelled as a list of characters (all inputs of
interest are ASCII, so Rust byte indices coincide with character
indices). -/
abbrev Str := List Char

/-- Convenience constructor for `Str` literals. -/
def chs (s : String) : Str := s.data

/-- Rust slice `s.get(a..b)`: `None` when the range is invalid, otherwise
the sub-slice.  (On ASCII data byte boundaries are character boundaries.) -/
def sliceGet (s : Str) (a b : Nat) : Option Str :=
  if a ≤ b ∧ b ≤ s.length then some ((s.drop a).take (b - a)) else none

/-- Rust `s.rfind(';')`: index of the last semicolon, if any. -/
def rfindSemicolon (s : Str) : Option Nat :=
  match s.reverse.findIdx? (fun c => c = ';') with
  | some i => some (s.length - 1 - i)
  | none => none

/-- Decimal digits of a natural number, as characters (Rust `format!`
of a nonnegative integer). -/
def natDigits (n : Nat) : Str := (Nat.toDigits 10 n)

/-- Rust `attr.parse::<i32>()`: optional sign, at least one digit, all
digits, value within the `i32` range; `none` models the `Err` case (which
the lexer turns into a panic via `expect`). -/
def parseI32 (s : Str) : Option Int :=
  let signDigits : Int × Str :=
    match s with
    | '+' :: r => (1, r)
    | '-' :: r => (-1, r)
    | r => (1, r)
  let sign := signDigits.fst
  let digits := signDigits.snd
  if digits = [] then none
  else if digits.all Char.isDigit then
    let v : Nat := digits.foldl (fun a c => a * 10 + (c.toNat - 48)) 0
    let iv : Int := sign * (v : Int)
    if -2147483648 ≤ iv ∧ iv ≤ 2147483647 then some iv else none
  else none

/-- Big-endian bytes of a `u32` (Rust `u32::to_be_bytes`). -/
def u32be (n : Nat) : List Nat :=
  [n / 16777216 % 256, n / 65536 % 256, n / 256 % 256, n % 256]

/-- Big-endian bytes of an `i32` (two's complement, Rust
`i32::to_be_bytes`). -/
def i32be (i : Int) : List Nat := u32be ((i % 4294967296).toNat)

/-- Association-list lookup, modelling `HashMap::get` /
`HashMap::contains_key`. -/
def assocFind {α : Type} (k : Str) (m : List (Str × α)) : Option α :=
  match m.find? (fun p => p.fst = k) with
  | some p => some p.snd
  | none => none

/-- `HashMap::insert` on the association-list model (overwrites an
existing binding, otherwise appends; iteration order of the Rust map is
arbitrary, the claims below never observe it). -/
def assocInsert {α : Type} (k : Str) (v : α) (m : List (Str × α)) :
    List (Str × α) :=
  if m.any (fun p => p.fst = k) then
    m.map (fun p => if p.fst = k then (k, v) else p)
  else m ++ [(k, v)]

/-! ## Lexer (src/lexer.rs) -/

/-- Token type.  This is the union of the variants declared in
src/lexer.rs and the additional variants referenced by src/parser.rs
(`Int`, `FloatKW`, `Bool`, `Char`, `Character`): the two files in the
snapshot reference slightly different revisions of the enum, and each
file's claims are settled against that file.  `f64`/`f32` literal payloads
are carried as their source text: no claim observes float values. -/
inductive Token where
  | ID (name : Str)
  | Integer (val : Int)
  | Float (text : Str)
  | StringLiteral (text : Str)
  | Node
  | Export
  | Var
  | Const
  | Fn
  | While
  | True
  | False
  | If
  | Else
  | Assign
  | Add
  | Mul
  | Sub
  | Div
  | AddAssign
  | MulAssign
  | SubAssign
  | DivAssign
  | LeftParen
  | RightParen
  | LeftBracket
  | RightBracket
  | LeftBrace
  | RightBrace
  | Semicolon
  | Colon
  | DoubleColon
  | Arrow
  | Dot
  | Comma
  | Equals
  | Not
  | Less
  | Greater
  | Leq
  | Geq
  | Neq
  | LogicalAnd
  | LogicalOr
  | BitwiseAnd
  | BitwiseOr
  | Return
  | Int
  | FloatKW
  | Bool
  | Char
  | Character (c : Char)

/-- The `KEYWORDS` perfect map of src/lexer.rs. -/
def keywordsFind (s : Str) : Option Token :=
  if s = chs ("node") then some .Node
  else if s = chs ("export") then some .Export
  else if s = chs ("var") then some .Var
  else if s = chs ("const") then some .Const
  else if s = chs ("fn") then some .Fn
  else if s = chs ("while") then some .While
  else if s = chs ("true") then some .True
  else if s = chs ("false") then some .False
  else if s = chs ("if") then some .If
  else if s = chs ("else") then some .Else
  else if s = chs ("return") then some .Return
  else none

/-- The `SYMBOLS` perfect map of src/lexer.rs.  Note that it maps
two pipes to `LogicalOr` and one pipe to `BitwiseOr`; indexing a key
that is absent panics in Rust (`phf::Map` `Index`). -/
def symbolsFind (s : Str) : Option Token :=
  if s = chs ("=") then some .Assign
  else if s = chs ("+") then some .Add
  else if s = chs ("-") then some .Sub
  else if s = chs ("*") then some .Mul
  else if s = chs ("/") then some .Div
  else if s = chs ("+=") then some .AddAssign
  else if s = chs ("-=") then some .SubAssign
  else if s = chs ("*=") then some .MulAssign
  else if s = chs ("/=") then some .DivAssign
  else if s = chs ("(") then some .LeftParen
  else if s = chs (")") then some .RightParen
  else if s = chs ("[") then some .LeftBracket
  else if s = chs ("]") then some .RightBracket
  else if s = chs ("\x7b") then some .LeftBrace
  else if s = chs ("\x7d") then some .RightBrace
  else if s = chs (";") then some .Semicolon
  else if s = chs (":") then some .Colon
  else if s = chs ("::") then some .DoubleColon
  else if s = chs ("->") then some .Arrow
  else if s = chs (".") then some .Dot
  else if s = chs (",") then some .Comma
  else if s = chs ("==") then some .Equals
  else if s = chs ("!") then some .Not
  else if s = chs ("<") then some .Less
  else if s = chs (">") then some .Greater
  else if s = chs ("<=") then some .Leq
  else if s = chs (">=") then some .Geq
  else if s = chs ("!=") then some .Neq
  else if s = chs ("&&") then some .LogicalAnd
  else if s = chs ("||") then some .LogicalOr
  else if s = chs ("&") then some .BitwiseAnd
  else if s = chs ("|") then some .BitwiseOr
  else none

/-- Outcome of one `next_token` call: a token, the no-more-tokens signal
(`None`), or a Rust panic (`expect` on a failed `i32` parse, or a missing
`SYMBOLS` key). -/
inductive LexOut where
  | tok (t : Token)
  | noTok
  | panicked

/-- `Lexer::new`: the character buffer is the concatenation of the
file's lines with every end-of-line character removed (Rust
`BufRead::lines` strips the terminators and the loop pushes only the
line bodies).  File I/O is out of scope; the input is modelled as the
list of lines. -/
def lexerNewChars (lines : List Str) : Str :=
  lines.foldl (fun acc l => acc ++ l) []

/-- The code that runs when `next_token`'s scanning loop falls off the
end of the character buffer (the `match state` after the `while`). -/
def nextTokenEnd (charsBuf : Str) (curr : Nat) (state : Nat) :
    LexOut × Nat :=
  match state with
  | 4 =>
    let attr := (charsBuf.drop curr).take (charsBuf.length - curr)
    match keywordsFind attr with
    | some t => (.tok t, charsBuf.length)
    | none => (.tok (.ID attr), charsBuf.length)
  | 5 =>
    let attr := (charsBuf.drop curr).take (charsBuf.length - curr)
    match parseI32 attr with
    | some v => (.tok (.Integer v), charsBuf.length)
    | none => (.panicked, curr)
  | 6 =>
    let attr := (charsBuf.drop curr).take (charsBuf.length - curr)
    (.tok (.Float attr), charsBuf.length)
  | 7 =>
    let attr := (charsBuf.drop curr).take (charsBuf.length - curr)
    (.tok (.StringLiteral attr), charsBuf.length)
  | _ => (.noTok, curr)

/-- The scanning loop of `next_token` (src/lexer.rs lines 156-350), a
DFA over states 0-9.  `fuel` bounds the loop; every iteration advances
`forward`, so `charsBuf.length + 1` fuel is always sufficient, making the
fuel-0 case unreachable from `nextToken`. -/
def nextTokenLoop (charsBuf : Str) :
    Nat → Nat → Nat → Nat → LexOut × Nat
  | 0, curr, _, state => nextTokenEnd charsBuf curr state
  | fuel + 1, curr, forward, state =>
    if forward < charsBuf.length then
      let c := charsBuf.getD forward ' '
      match state with
      | 0 =>
        if c = ' ' ∨ c = '\t' ∨ c = '\n' ∨ c = '\r' then
          nextTokenLoop charsBuf fuel (forward + 1) (forward + 1) 0
        else if c = '{' then (.tok .LeftBrace, forward + 1)
        else if c = '}' then (.tok .RightBrace, forward + 1)
        else if c = '(' then (.tok .LeftParen, forward + 1)
        else if c = ')' then (.tok .RightParen, forward + 1)
        else if c = '[' then (.tok .LeftBracket, forward + 1)
        else if c = ']' then (.tok .RightBracket, forward + 1)
        else if c = ';' then (.tok .Semicolon, forward + 1)
        else if c = '.' then (.tok .Dot, forward + 1)
        else if c = ',' then (.tok .Comma, forward + 1)
        else if c = '+' ∨ c = '*' ∨ c = '/' ∨ c = '=' ∨ c = '!' ∨
            c = '<' ∨ c = '>' then
          nextTokenLoop charsBuf fuel curr (forward + 1) 1
        else if c = ':' then nextTokenLoop charsBuf fuel curr (forward + 1) 2
        else if c = '-' then nextTokenLoop charsBuf fuel curr (forward + 1) 3
        else if c.isAlpha ∨ c = '_' then
          nextTokenLoop charsBuf fuel curr (forward + 1) 4
        else if c.isDigit then
          nextTokenLoop charsBuf fuel curr (forward + 1) 5
        else if c = '"' then nextTokenLoop charsBuf fuel curr (forward + 1) 7
        else if c = '&' then nextTokenLoop charsBuf fuel curr (forward + 1) 8
        else if c = '|' then nextTokenLoop charsBuf fuel curr (forward + 1) 9
        else nextTokenLoop charsBuf fuel curr (forward + 1) 0
      | 1 =>
        if c = '=' then
          let attr := (charsBuf.drop curr).take (forward + 1 - curr)
          match symbolsFind attr with
          | some t => (.tok t, forward + 1)
          | none => (.panicked, curr)
        else
          let attr := [charsBuf.getD (forward - 1) ' ']
          match symbolsFind attr with
          | some t => (.tok t, forward)
          | none => (.panicked, curr)
      | 2 =>
        if c = ':' then (.tok .DoubleColon, forward + 1)
        else (.tok .Colon, forward)
      | 3 =>
        if c = '>' then (.tok .Arrow, forward + 1)
        else if c = '=' then (.tok .SubAssign, forward + 1)
        else (.tok .Sub, forward)
      | 4 =>
        if ¬ (c.isAlphanum ∨ c = '_') then
          let attr := (charsBuf.drop curr).take (forward - curr)
          match keywordsFind attr with
          | some t => (.tok t, forward)
          | none => (.tok (.ID attr), forward)
        else nextTokenLoop charsBuf fuel curr (forward + 1) 4
      | 5 =>
        if c = '.' then nextTokenLoop charsBuf fuel curr (forward + 1) 6
        else if ¬ c.isDigit then
          let attr := (charsBuf.drop curr).take (forward - curr)
          match parseI32 attr with
          | some v => (.tok (.Integer v), forward)
          | none => (.panicked, curr)
        else nextTokenLoop charsBuf fuel curr (forward + 1) 5
      | 6 =>
        if ¬ c.isDigit then
          let attr := (charsBuf.drop curr).take (forward - curr)
          (.tok (.Float attr), forward)
        else nextTokenLoop charsBuf fuel curr (forward + 1) 6
      | 7 =>
        if c = '"' then
          let attr := (charsBuf.drop curr).take (forward + 1 - curr)
          (.tok (.StringLiteral attr), forward + 1)
        else nextTokenLoop charsBuf fuel curr (forward + 1) 7
      | 8 =>
        if c = '&' then (.tok .LogicalAnd, forward + 1)
        else (.tok .BitwiseAnd, forward)
      | 9 =>
        if c = '|' then (.tok .LogicalAnd, forward + 1)
        else (.tok .BitwiseAnd, forward)
      | _ => nextTokenLoop charsBuf fuel curr (forward + 1) state
    else nextTokenEnd charsBuf curr state

/-- `Lexer::next_token`: returns the outcome and the updated `self.curr`
position. -/
def nextToken (charsBuf : Str) (curr : Nat) : LexOut × Nat :=
  nextTokenLoop charsBuf (charsBuf.length + 1) curr curr 0

/-! ## Parser data model (src/parser.rs) -/

/-- AST node tags (`SyntaxTreeNode` in src/parser.rs).  `f32` float
payloads are carried as source text (no claim observes float values). -/
inductive SyntaxTreeNode where
  | NodeSeq
  | DeclareNode
  | NodeHeader
  | NodeList
  | TLStmtSeq
  | DeclareFunc
  | ParamList
  | Param
  | ReturnType
  | Void
  | NoReturn
  | StmtSeq
  | DeclareVar
  | DeclareConst
  | ReturnValue
  | WhileLoop
  | IfStmt
  | Assign
  | Index
  | FnCall
  | InputList
  | AddOp
  | SubOp
  | MulOp
  | DivOp
  | OrOp
  | AndOp
  | CompEq
  | CompNeq
  | CompLess
  | CompGreater
  | CompLeq
  | CompGeq
  | Integer (i : Int)
  | Float (text : Str)
  | Character (c : Char)
  | Identifier (name : Str)
  | True
  | False
  | Null

/-- `AbstractSyntaxTree`: a tagged node with an ordered child list. -/
inductive AbstractSyntaxTree where
  | mk (node : SyntaxTreeNode) (children : List AbstractSyntaxTree)

/-- The tag of an AST node. -/
def AbstractSyntaxTree.node : AbstractSyntaxTree → SyntaxTreeNode
  | .mk n _ => n

/-- The children of an AST node. -/
def AbstractSyntaxTree.children :
    AbstractSyntaxTree → List AbstractSyntaxTree
  | .mk _ c => c

/-- `AbstractSyntaxTree::new()`: a `Null` node with no children. -/
instance : Inhabited AbstractSyntaxTree := ⟨.mk .Null []⟩

/-- Tag test `node == SyntaxTreeNode::Null` (written as a shallow match
so that no decidable-equality instance over the whole 39-constructor
enum is needed). -/
def SyntaxTreeNode.isNull : SyntaxTreeNode → Bool
  | .Null => true
  | _ => false

/-- Tag test `node == SyntaxTreeNode::Index`. -/
def SyntaxTreeNode.isIndexNode : SyntaxTreeNode → Bool
  | .Index => true
  | _ => false

/-- Tag test `node == SyntaxTreeNode::InputList`. -/
def SyntaxTreeNode.isInputListNode : SyntaxTreeNode → Bool
  | .InputList => true
  | _ => false

/-- Tag test for the `AddOp`/`SubOp` precedence class (the condition of
`rebalance_expression_tree`'s loops). -/
def SyntaxTreeNode.isAddSubOp : SyntaxTreeNode → Bool
  | .AddOp => true
  | .SubOp => true
  | _ => false

/-- Tag test for the `MulOp`/`DivOp` precedence class. -/
def SyntaxTreeNode.isMulDivOp : SyntaxTreeNode → Bool
  | .MulOp => true
  | .DivOp => true
  | _ => false

/-- Tag test for `OrOp`. -/
def SyntaxTreeNode.isOrOp : SyntaxTreeNode → Bool
  | .OrOp => true
  | _ => false

/-- Tag test for `AndOp`. -/
def SyntaxTreeNode.isAndOp : SyntaxTreeNode → Bool
  | .AndOp => true
  | _ => false

/-- Grammar symbols of the LL(1) parser (`GrammarSymbol`). -/
inductive GrammarSymbol where
  | Terminal (t : Token)
  | Empty
  | End
  | Array
  | ArrLen
  | AssignOrFnCall
  | Block
  | BoolExpr
  | BoolTerm
  | BoolTerm1
  | Comparison
  | Conditional
  | Conditional1
  | CondOrArr
  | Definition
  | Expression
  | Expression1
  | Factor
  | Func
  | ID
  | IDOrFn
  | InputList
  | InputRest
  | NodeBlock
  | NodeHeader
  | NodeList
  | NodeNT
  | NodeRest
  | Primitive
  | OptElse
  | OptIDList
  | OptIndex
  | Param
  | ParamList
  | ParamRest
  | Positive
  | Program
  | ReturnType
  | Stmt
  | StmtList
  | Term
  | Term1
  | TLStmt
  | TLStmtList
  | Type

/-- Tag test `sym == GrammarSymbol::OptIndex` (shallow match, avoiding
a decidable-equality instance over the whole symbol enum). -/
def GrammarSymbol.isOptIndex : GrammarSymbol → Bool
  | .OptIndex => true
  | _ => false

/-- Association-list lookup with `Nat` keys (`HashMap<usize, _>::get`). -/
def natAssocFind {α : Type} (k : Nat) (m : List (Nat × α)) : Option α :=
  match m.find? (fun p => p.fst = k) with
  | some p => some p.snd
  | none => none

/-- `HashMap<usize, _>::insert` on the association-list model. -/
def natAssocInsert {α : Type} (k : Nat) (v : α) (m : List (Nat × α)) :
    List (Nat × α) :=
  if m.any (fun p => p.fst = k) then
    m.map (fun p => if p.fst = k then (k, v) else p)
  else m ++ [(k, v)]

/-- The parse-tree arena (`ParseTree`): a flat node list, an ordered
child list per node, and a parent map. -/
structure ParseTree where
  nodeList : List GrammarSymbol
  adjList : List (Nat × List Nat)
  parentsList : List (Nat × Nat)

/-- `ParseTree::new()`. -/
def ParseTree.new : ParseTree := ⟨[], [], []⟩

/-- `ParseTree::set_root`. -/
def ParseTree.setRoot (t : ParseTree) (sym : GrammarSymbol) : ParseTree :=
  if t.nodeList.length = 0 then { t with nodeList := [sym] }
  else { t with nodeList := t.nodeList.set 0 sym }

/-- `ParseTree::get_node`; `none` models the Rust index panic on an
out-of-range index. -/
def ParseTree.getNode (t : ParseTree) (idx : Nat) : Option GrammarSymbol :=
  t.nodeList.get? idx

/-- `ParseTree::get_children`. -/
def ParseTree.getChildren (t : ParseTree) (idx : Nat) : List Nat :=
  match natAssocFind idx t.adjList with
  | some children => children
  | none => []

/-- `ParseTree::add_child`: returns the new node's index and the updated
arena. -/
def ParseTree.addChild (t : ParseTree) (idx : Nat) (sym : GrammarSymbol) :
    Nat × ParseTree :=
  let newIdx := t.nodeList.length
  let neighbors :=
    (match natAssocFind idx t.adjList with
     | some v => v
     | none => []) ++ [newIdx]
  (newIdx,
   { nodeList := t.nodeList ++ [sym],
     adjList := natAssocInsert idx neighbors t.adjList,
     parentsList := natAssocInsert newIdx idx t.parentsList })

/-- Result of the sibling scan inside `get_next_nt_sibling`: a later
nonterminal sibling was found, the scan fell through to the parent, or a
Rust panic (missing arena entry). -/
inductive GnsScan where
  | found (s : Nat)
  | cont
  | panicked

/-- The `for sibling in siblings` scan of `get_next_nt_sibling`: once the
flag is set (a sibling equal to `idx` was seen), the first later sibling
that is not `Terminal`/`Empty`/`End` is returned. -/
def gnsScanLoop (t : ParseTree) (idx : Nat) :
    List Nat → Bool → GnsScan
  | [], _ => .cont
  | sibling :: rest, flag =>
    if flag then
      match t.nodeList.get? sibling with
      | none => .panicked
      | some (.Terminal _) => gnsScanLoop t idx rest flag
      | some .Empty => gnsScanLoop t idx rest flag
      | some .End => gnsScanLoop t idx rest flag
      | some _ => .found sibling
    else gnsScanLoop t idx rest (flag ∨ sibling = idx)

/-- The `loop` of `get_next_nt_sibling`, walking up the parent chain;
`none` models a Rust panic (missing map key) or fuel exhaustion (parents
strictly decrease in parser-built trees, so `nodeList.length + 1` fuel
always suffices). -/
def ParseTree.getNextNtSiblingLoop (t : ParseTree) :
    Nat → Nat → Option Nat
  | 0, _ => none
  | fuel + 1, idx =>
    if t.nodeList.length ≤ idx ∨ idx = 0 then some 0
    else
      match natAssocFind idx t.parentsList with
      | none => none
      | some parent =>
        match natAssocFind parent t.adjList with
        | none => none
        | some siblings =>
          match gnsScanLoop t idx siblings false with
          | .found s => some s
          | .panicked => none
          | .cont => t.getNextNtSiblingLoop fuel parent

/-- `ParseTree::get_next_nt_sibling`. -/
def ParseTree.getNextNtSibling (t : ParseTree) (idx : Nat) : Option Nat :=
  t.getNextNtSiblingLoop (t.nodeList.length + 1) idx

/-! ## LL(1) production table (the match arms of `Parser::parse`,
src/parser.rs lines 250-1021) -/

/-- The production chosen for a nonterminal under the current lookahead
token (`None` is end of input).  Errors are the source's `syntax error`
strings.  The `Terminal`/`Empty`/`End` arms are unreachable from the
parse loop (it handles those symbols before consulting the table). -/
def production (nt : GrammarSymbol) (token : Option Token) :
    Except String (List GrammarSymbol) :=
  match nt with
  | .Terminal _ | .Empty | .End =>
    .error ("syntax error: unreachable")
  | .Array =>
    match token with
    | some .LeftBracket =>
      .ok [.Terminal .LeftBracket, .InputList, .Terminal .RightBracket]
    | _ => .error ("syntax error: expected array assignment")
  | .ArrLen =>
    match token with
    | some (.Integer i) => .ok [.Terminal (.Integer i)]
    | _ =>
      .error ("syntax error: expected integer constant for array length")
  | .AssignOrFnCall =>
    match token with
    | some .Assign | some .LeftBracket =>
      .ok [.OptIndex, .Terminal .Assign, .CondOrArr, .Terminal .Semicolon]
    | some .LeftParen =>
      .ok [.Terminal .LeftParen, .InputList, .Terminal .RightParen,
           .Terminal .Semicolon]
    | _ => .error ("syntax error: expected function call or assignment")
  | .Block =>
    match token with
    | some .LeftBrace =>
      .ok [.Terminal .LeftBrace, .StmtList, .Terminal .RightBrace]
    | _ => .error ("syntax error: expected \x7b")
  | .BoolExpr =>
    match token with
    | some (.ID _) | some .Sub | some (.Integer _) | some (.Float _)
    | some (.Character _) | some .True | some .False | some .LeftParen =>
      .ok [.Expression, .Comparison]
    | _ => .error ("syntax error: expected expression 1")
  | .BoolTerm =>
    match token with
    | some (.ID _) | some .Sub | some .LeftParen | some (.Integer _)
    | some (.Float _) | some (.Character _) | some .True | some .False =>
      .ok [.BoolExpr, .BoolTerm1]
    | _ => .error ("syntax error: expected expression 2")
  | .BoolTerm1 =>
    match token with
    | some .LogicalAnd =>
      .ok [.Terminal .LogicalAnd, .BoolExpr, .Conditional1]
    | some .LeftBrace | some .LogicalOr | some .Semicolon | some .Comma
    | some .RightParen | some .RightBracket => .ok []
    | _ => .error ("syntax error: expected expression 3")
  | .Comparison =>
    match token with
    | some .Equals => .ok [.Terminal .Equals, .Expression]
    | some .Neq => .ok [.Terminal .Neq, .Expression]
    | some .Less => .ok [.Terminal .Less, .Expression]
    | some .Greater => .ok [.Terminal .Greater, .Expression]
    | some .Leq => .ok [.Terminal .Leq, .Expression]
    | some .Geq => .ok [.Terminal .Geq, .Expression]
    | some .LogicalAnd | some .LogicalOr | some .LeftBrace
    | some .Semicolon | some .Comma | some .RightParen
    | some .RightBracket => .ok []
    | _ => .error ("syntax error: expected comparison symbol")
  | .Conditional =>
    match token with
    | some (.ID _) | some .LeftParen | some .Sub | some (.Integer _)
    | some (.Float _) | some (.Character _) | some .True | some .False =>
      .ok [.BoolTerm, .Conditional1]
    | _ => .error ("syntax error: expected expression 4")
  | .Conditional1 =>
    match token with
    | some .LogicalOr =>
      .ok [.Terminal .LogicalOr, .BoolTerm, .Conditional1]
    | some .LeftBrace | some .Semicolon | some .Comma | some .RightParen
    | some .RightBracket => .ok []
    | _ => .error ("syntax error: expected expression 5")
  | .CondOrArr =>
    match token with
    | some (.ID _) | some .LeftParen | some .Sub | some (.Integer _)
    | some (.Float _) | some (.Character _) | some .True | some .False =>
      .ok [.Conditional]
    | some .LeftBracket => .ok [.Array]
    | _ => .error ("syntax error: expected conditional or array")
  | .Definition =>
    match token with
    | some .Var =>
      .ok [.Terminal .Var, .ID, .Terminal .Colon, .Type,
           .Terminal .Assign, .CondOrArr, .Terminal .Semicolon]
    | some .Const =>
      .ok [.Terminal .Const, .ID, .Terminal .Colon, .Type,
           .Terminal .Assign, .CondOrArr, .Terminal .Semicolon]
    | _ => .error ("syntax error: expected variable definition")
  | .Expression =>
    match token with
    | some (.ID _) | some .Sub | some (.Integer _) | some (.Float _)
    | some (.Character _) | some .True | some .False | some .LeftParen =>
      .ok [.Term, .Expression1]
    | _ => .error ("syntax error: expected expression 6")
  | .Expression1 =>
    match token with
    | some .RightParen | some .Semicolon | some .Equals | some .Neq
    | some .Less | some .Greater | some .Leq | some .Geq
    | some .LeftBrace | some .LogicalAnd | some .LogicalOr | some .Comma
    | some .RightBracket => .ok []
    | some .Sub => .ok [.Terminal .Sub, .Term, .Expression1]
    | some .Add => .ok [.Terminal .Add, .Term, .Expression1]
    | _ => .error ("syntax error: expected expression 7")
  | .Factor =>
    match token with
    | some .LeftParen =>
      .ok [.Terminal .LeftParen, .Expression, .Terminal .RightParen]
    | some (.ID _) => .ok [.ID, .IDOrFn]
    | some .Sub | some (.Integer _) | some (.Float _) | some .True
    | some .False => .ok [.Primitive]
    | _ => .error ("syntax error: expected expression 8")
  | .Func =>
    match token with
    | some .Fn =>
      .ok [.Terminal .Fn, .ID, .Terminal .LeftParen, .ParamList,
           .Terminal .RightParen, .Terminal .Arrow, .ReturnType, .Block]
    | _ => .error ("syntax error: expected function declaration")
  | .ID =>
    match token with
    | some (.ID id) => .ok [.Terminal (.ID id)]
    | _ => .error ("syntax error: expected identifier")
  | .IDOrFn =>
    match token with
    | some .LeftBracket => .ok [.OptIndex]
    | some .LeftParen =>
      .ok [.Terminal .LeftParen, .InputList, .Terminal .RightParen]
    | some .Mul | some .Div | some .Add | some .Sub | some .RightParen
    | some .Semicolon | some .Equals | some .Neq | some .Less
    | some .Greater | some .Leq | some .Geq | some .LeftBrace
    | some .LogicalAnd | some .LogicalOr | some .Comma
    | some .RightBracket => .ok []
    | _ => .error ("syntax error: expected identifier or function call")
  | .InputList =>
    match token with
    | some (.ID _) | some .Sub | some (.Integer _) | some (.Float _)
    | some (.Character _) | some .True | some .False | some .LeftParen
    | some .LeftBracket => .ok [.CondOrArr, .InputRest]
    | some .RightParen | some .RightBracket => .ok []
    | _ => .error ("syntax error: expected valid input")
  | .InputRest =>
    match token with
    | some .Comma => .ok [.Terminal .Comma, .InputList]
    | some .RightParen | some .RightBracket => .ok []
    | _ => .error ("syntax error: expected comma")
  | .NodeBlock =>
    match token with
    | some .LeftBrace =>
      .ok [.Terminal .LeftBrace, .TLStmtList, .Terminal .RightBrace]
    | _ => .error ("syntax error: expected \x7b")
  | .NodeHeader =>
    match token with
    | some (.ID _) => .ok [.ID, .OptIDList]
    | _ => .error ("syntax error: expected identifier for node")
  | .NodeList =>
    match token with
    | some (.ID _) => .ok [.ID, .NodeRest]
    | _ => .error ("syntax error: expected list of node identifiers")
  | .NodeNT =>
    match token with
    | some .Node =>
      .ok [.Terminal .Node, .NodeHeader, .NodeBlock]
    | _ => .error ("syntax error: expected node keyword")
  | .NodeRest =>
    match token with
    | some .Comma => .ok [.Terminal .Comma, .NodeList]
    | some .LeftBrace => .ok []
    | _ => .error ("syntax error: expected comma for node list")
  | .Primitive =>
    match token with
    | some .True => .ok [.Terminal .True]
    | some .False => .ok [.Terminal .False]
    | some .Sub => .ok [.Terminal .Sub, .Positive]
    | some (.Integer _) | some (.Float _) => .ok [.Positive]
    | _ => .error ("syntax error: expected number")
  | .OptElse =>
    match token with
    | some .Else => .ok [.Terminal .Else, .Block]
    | some .Var | some .Const | some (.ID _) | some .While | some .If
    | some .Return | some .RightBrace => .ok []
    | _ => .error ("syntax error: expected else keyword")
  | .OptIDList =>
    match token with
    | some .Colon => .ok [.Terminal .Colon, .NodeList]
    | some .LeftBrace => .ok []
    | _ => .error ("syntax error: expected : or \x7b")
  | .OptIndex =>
    match token with
    | some .LeftBracket =>
      .ok [.Terminal .LeftBracket, .Expression, .Terminal .RightBracket,
           .OptIndex]
    | some .Assign | some .Mul | some .Div | some .Add | some .Sub
    | some .RightParen | some .Semicolon | some .Equals | some .Neq
    | some .Less | some .Greater | some .Leq | some .Geq
    | some .LeftBrace | some .LogicalAnd | some .LogicalOr | some .Comma
    | some .RightBracket => .ok []
    | _ => .error ("syntax error: expected array index")
  | .Param =>
    match token with
    | some (.ID _) => .ok [.ID, .Terminal .Colon, .Type]
    | _ => .error ("syntax error: expected parameter name")
  | .ParamList =>
    match token with
    | some (.ID _) => .ok [.Param, .ParamRest]
    | some .RightParen => .ok []
    | _ => .error ("syntax error: expected parameter list")
  | .ParamRest =>
    match token with
    | some .Comma => .ok [.Terminal .Comma, .ParamList]
    | some .RightParen => .ok []
    | _ => .error ("syntax error: expected comma for param list")
  | .Positive =>
    match token with
    | some (.Integer num) => .ok [.Terminal (.Integer num)]
    | some (.Float num) => .ok [.Terminal (.Float num)]
    | _ => .error ("syntax error: expected number")
  | .Program =>
    match token with
    | some .Node => .ok [.NodeNT, .Program]
    | none => .ok []
    | _ => .error ("syntax error: expected node keyword")
  | .ReturnType =>
    match token with
    | some (.ID _) | some .Int | some .FloatKW | some .Bool
    | some .Char => .ok [.Type]
    | some .LeftParen =>
      .ok [.Terminal .LeftParen, .Terminal .RightParen]
    | some .Not => .ok [.Terminal .Not]
    | _ => .error ("syntax error: invalid return type")
  | .Stmt =>
    match token with
    | some .Var => .ok [.Definition]
    | some .Const => .ok [.Definition]
    | some (.ID _) => .ok [.ID, .AssignOrFnCall]
    | some .While => .ok [.Terminal .While, .Conditional, .Block]
    | some .If =>
      .ok [.Terminal .If, .Conditional, .Block, .OptElse]
    | some .Return =>
      .ok [.Terminal .Return, .Conditional, .Terminal .Semicolon]
    | _ => .error ("syntax error: invalid statement")
  | .StmtList =>
    match token with
    | some .Var | some .Const | some .While | some .If | some .Return
    | some (.ID _) => .ok [.Stmt, .StmtList]
    | some .RightBrace => .ok []
    | _ => .error ("syntax error: unrecognized statement")
  | .Term =>
    match token with
    | some (.ID _) | some .Sub | some (.Integer _) | some (.Float _)
    | some .True | some .False | some .LeftParen =>
      .ok [.Factor, .Term1]
    | some (.Character c) => .ok [.Terminal (.Character c)]
    | _ => .error ("syntax error: expected term")
  | .Term1 =>
    match token with
    | some .Mul => .ok [.Terminal .Mul, .Factor, .Term1]
    | some .Div => .ok [.Terminal .Div, .Factor, .Term1]
    | some .Add | some .Sub | some .RightParen | some .Semicolon
    | some .Equals | some .Neq | some .Less | some .Greater | some .Leq
    | some .Geq | some .LeftBrace | some .LogicalAnd | some .LogicalOr
    | some .Comma | some .RightBracket => .ok []
    | _ => .error ("syntax error: expected term 2")
  | .TLStmt =>
    match token with
    | some .Export => .ok [.Terminal .Export, .Definition]
    | some .Fn => .ok [.Func]
    | _ => .error ("syntax error: invalid top level statement")
  | .TLStmtList =>
    match token with
    | some .Fn | some .Export => .ok [.TLStmt, .TLStmtList]
    | some .RightBrace => .ok []
    | _ => .error ("syntax error: invalid top level statement 2")
  | .Type =>
    match token with
    | some (.ID _) => .ok [.ID]
    | some .Int => .ok [.Terminal .Int]
    | some .FloatKW => .ok [.Terminal .FloatKW]
    | some .Bool => .ok [.Terminal .Bool]
    | some .Char => .ok [.Terminal .Char]
    | some .LeftBracket =>
      .ok [.Terminal .LeftBracket, .Type, .Terminal .Semicolon, .ArrLen,
           .Terminal .RightBracket]
    | _ => .error ("syntax error: expected type")

/-! ## The parse loop (`Parser::parse`) -/

/-- Outcome of `Parser::parse`. -/
inductive POut where
  | accept (t : ParseTree)
  | err (msg : String)
  | panicked
  | noFuel

/-- Adding a production's symbols as children of the focus node, in
grammar order, returning the updated arena and the index of the first
nonterminal child (the `has_nt`/`next_idx` computation). -/
def addProductionChildren (pt : ParseTree) (idx : Nat) :
    List GrammarSymbol → ParseTree × Option Nat
  | [] => (pt, none)
  | sym :: rest =>
    let step := pt.addChild idx sym
    let recres := addProductionChildren step.snd idx rest
    match sym with
    | .Terminal _ | .Empty | .End => recres
    | _ => (recres.fst, some step.fst)

/-- The combined outer token-fetch loop and inner stack loop of
`Parser::parse`.  The grammar stack is kept with the Rust list's back
(top) at the head, so pushing a production in reverse order becomes list
append.  Terminal matching mirrors the source's
`std::mem::discriminant(&token) == std::mem::discriminant(&Some(t))`,
which compares the discriminant of `Option<Token>`, i.e. only checks
that a token is present.  `tks` holds the not-yet-fetched tokens and
`tok` the current lookahead. -/
def parseGo :
    Nat → List Token → Option Token → List GrammarSymbol → ParseTree →
    Nat → POut
  | 0, _, _, _, _, _ => .noFuel
  | fuel + 1, tks, tok, stk, pt, idx =>
    match stk with
    | [] =>
      if tok.isNone then .accept pt
      else parseGo fuel tks.tail tks.head? [] pt idx
    | top :: rest =>
      match top with
      | .Terminal _ =>
        if tok.isSome then parseGo fuel tks.tail tks.head? rest pt idx
        else .err ("syntax error 1")
      | .Empty => parseGo fuel tks tok rest pt idx
      | .End =>
        if tok.isNone then
          if rest.isEmpty then .accept pt
          else parseGo fuel tks.tail tks.head? rest pt idx
        else .err ("syntax error 3")
      | nt =>
        match production nt tok with
        | .error e => .err e
        | .ok [] =>
          let step := pt.addChild idx .Empty
          match step.snd.getNextNtSibling idx with
          | none => .panicked
          | some idx2 => parseGo fuel tks tok rest step.snd idx2
        | .ok prod =>
          let stk2 := prod ++ rest
          let added := addProductionChildren pt idx prod
          match added.snd with
          | some idx2 => parseGo fuel tks tok stk2 added.fst idx2
          | none =>
            match added.fst.getNextNtSibling idx with
            | none => .panicked
            | some idx2 => parseGo fuel tks tok stk2 added.fst idx2

/-- `Parser::parse` on a token stream (the lexer is modelled as an
already-produced token list; `next_token` pops the head). -/
def parse (tks : List Token) (fuel : Nat) : POut :=
  parseGo fuel tks.tail tks.head? [.Program, .End]
    (ParseTree.new.setRoot .Program) 0

/-! ## Parse-tree to AST lowering (src/parser.rs lines 1070-1883) -/

/-- Decimal rendering of an `i32` (Rust `format!` of an `i32`). -/
def intDigits (i : Int) : Str :=
  if i < 0 then '-' :: natDigits (-i).toNat else natDigits i.toNat

/-- Rust `format!` of the shape used for array types,
producing the text between brackets: element type, then a semicolon, a
space and the length text. -/
def fmtBracketTy (t : Str) (lenTxt : Str) : Str :=
  '[' :: t ++ ';' :: ' ' :: lenTxt ++ [']']

/-- First phase shared by the four rebalancers: walk down the right
spine of `isOp` nodes with more than one child, pushing on a stack each
spine node with its right child removed; returns the stack and the final
(non-spine) node.  Fuel bounds the `while`; the spine is finite so any
fuel past the tree depth is enough. -/
def rebalanceSpineBy (isOp : SyntaxTreeNode → Bool) :
    Nat → AbstractSyntaxTree →
    List AbstractSyntaxTree × AbstractSyntaxTree
  | 0, root => ([], root)
  | fuel + 1, root =>
    if 1 < root.children.length ∧ isOp root.node then
      let subtree := AbstractSyntaxTree.mk root.node (root.children.eraseIdx 1)
      let next := root.children.getD 1 default
      let res := rebalanceSpineBy isOp fuel next
      (subtree :: res.fst, res.snd)
    else ([], root)

/-- Second phase shared by the four rebalancers: fold the remaining
stack entries into a left-leaning tree (the `while !stack.is_empty()`
loop after the first `pop_front`). -/
def rebalanceRebuildBy (isOp : SyntaxTreeNode → Bool) :
    AbstractSyntaxTree → List AbstractSyntaxTree → AbstractSyntaxTree
  | tree, [] => tree
  | tree, front :: rest =>
    if 0 < front.children.length ∧ isOp front.node then
      rebalanceRebuildBy isOp
        (.mk front.node
          [.mk tree.node (tree.children ++ [front.children.getD 0 default])])
        rest
    else rebalanceRebuildBy isOp (.mk tree.node (tree.children ++ [front])) rest

/-- `rebalance_expression_tree` (`AddOp`/`SubOp` spine). -/
def rebalanceExpressionTree (fuel : Nat) (tree : AbstractSyntaxTree) :
    AbstractSyntaxTree :=
  let spine := rebalanceSpineBy SyntaxTreeNode.isAddSubOp fuel tree
  match spine.fst ++ [spine.snd] with
  | [] => tree
  | t0 :: rest => rebalanceRebuildBy SyntaxTreeNode.isAddSubOp t0 rest

/-- `rebalance_term_tree` (`MulOp`/`DivOp` spine). -/
def rebalanceTermTree (fuel : Nat) (tree : AbstractSyntaxTree) :
    AbstractSyntaxTree :=
  let spine := rebalanceSpineBy SyntaxTreeNode.isMulDivOp fuel tree
  match spine.fst ++ [spine.snd] with
  | [] => tree
  | t0 :: rest => rebalanceRebuildBy SyntaxTreeNode.isMulDivOp t0 rest

/-- `rebalance_comparison_tree` (`OrOp` spine). -/
def rebalanceComparisonTree (fuel : Nat) (tree : AbstractSyntaxTree) :
    AbstractSyntaxTree :=
  let spine := rebalanceSpineBy SyntaxTreeNode.isOrOp fuel tree
  match spine.fst ++ [spine.snd] with
  | [] => tree
  | t0 :: rest => rebalanceRebuildBy SyntaxTreeNode.isOrOp t0 rest

/-- `rebalance_bool_term_tree` (`AndOp` spine). -/
def rebalanceBoolTermTree (fuel : Nat) (tree : AbstractSyntaxTree) :
    AbstractSyntaxTree :=
  let spine := rebalanceSpineBy SyntaxTreeNode.isAndOp fuel tree
  match spine.fst ++ [spine.snd] with
  | [] => tree
  | t0 :: rest => rebalanceRebuildBy SyntaxTreeNode.isAndOp t0 rest

set_option maxHeartbeats 800000 in
/-- Arms of the `build_ast_from_parse_node` match for the boolean and
comparison grammar symbols, the input lists, and the final catch-all
(which in the source prints a diagnostic and returns the default `Null`
tree) -/
def buildAstStepD (pt : ParseTree) (fuel : Nat)
    (rec : Nat → Option AbstractSyntaxTree) (node : GrammarSymbol)
    (children : List Nat) : Option AbstractSyntaxTree :=
  match node with
    | .Conditional => do
      let c1 ← children.get? 1
      let subtree ← rec c1
      match subtree.node with
      | .OrOp => do
        let c0 ← children.get? 0
        let b0 ← rec c0
        some (rebalanceComparisonTree fuel
          (.mk subtree.node (b0 :: subtree.children)))
      | _ => do
        let c0 ← children.get? 0
        rec c0
    | .Conditional1 => do
      let c0 ← children.get? 0
      let n0 ← pt.getNode c0
      match n0 with
      | .Terminal .LogicalOr => do
        let c2 ← children.get? 2
        let subtree ← rec c2
        let c1 ← children.get? 1
        let b1 ← rec c1
        match subtree.node with
        | .OrOp =>
          some (.mk .OrOp [.mk subtree.node (b1 :: subtree.children)])
        | _ => some (.mk .OrOp [b1])
      | _ => some (.mk .Null [])
    | .BoolTerm => do
      let c1 ← children.get? 1
      let subtree ← rec c1
      match subtree.node with
      | .AndOp => do
        let c0 ← children.get? 0
        let b0 ← rec c0
        some (rebalanceBoolTermTree fuel
          (.mk subtree.node (b0 :: subtree.children)))
      | _ => do
        let c0 ← children.get? 0
        rec c0
    | .BoolTerm1 => do
      let c0 ← children.get? 0
      let n0 ← pt.getNode c0
      match n0 with
      | .Terminal .LogicalAnd => do
        let c2 ← children.get? 2
        let subtree ← rec c2
        let c1 ← children.get? 1
        let b1 ← rec c1
        match subtree.node with
        | .AndOp =>
          some (.mk .AndOp [.mk subtree.node (b1 :: subtree.children)])
        | _ => some (.mk .AndOp [b1])
      | _ => some (.mk .Null [])
    | .BoolExpr => do
      let c1 ← children.get? 1
      let comp ← rec c1
      match comp.node with
      | .Null => do
        let c0 ← children.get? 0
        rec c0
      | _ => do
        let c0 ← children.get? 0
        let b0 ← rec c0
        some (.mk comp.node (b0 :: comp.children))
    | .Comparison => do
      let c0 ← children.get? 0
      let n0 ← pt.getNode c0
      match n0 with
      | .Empty => some (.mk .Null [])
      | _ => do
        let b0 ← rec c0
        let c1 ← children.get? 1
        let b1 ← rec c1
        some (.mk b0.node [b1])
    | .Terminal .Equals => some (.mk .CompEq [])
    | .Terminal .Neq => some (.mk .CompNeq [])
    | .Terminal .Less => some (.mk .CompLess [])
    | .Terminal .Greater => some (.mk .CompGreater [])
    | .Terminal .Leq => some (.mk .CompLeq [])
    | .Terminal .Geq => some (.mk .CompGeq [])
    | .InputList => do
      let c0 ← children.get? 0
      let n0 ← pt.getNode c0
      match n0 with
      | .Empty => some (.mk .Null [])
      | .CondOrArr => do
        let c1 ← children.get? 1
        let b0 ← rec c0
        let b1 ← rec c1
        some (.mk .InputList [b0, b1])
      | _ => some (.mk .Null [])
    | .InputRest => do
      let c0 ← children.get? 0
      let n0 ← pt.getNode c0
      match n0 with
      | .Empty => some (.mk .Null [])
      | .Terminal .Comma => do
        let c1 ← children.get? 1
        rec c1
      | _ => some (.mk .Null [])
    | _ => some (.mk .Null [])

set_option maxHeartbeats 800000 in
/-- Arms of the `build_ast_from_parse_node` match for statements,
definitions and the arithmetic expression symbols; other symbols fall
through to `buildAstStepD` -/
def buildAstStepC (pt : ParseTree) (fuel : Nat)
    (rec : Nat → Option AbstractSyntaxTree) (node : GrammarSymbol)
    (children : List Nat) : Option AbstractSyntaxTree :=
  match node with
    | .Stmt => do
      let c0 ← children.get? 0
      let n0 ← pt.getNode c0
      match n0 with
      | .Terminal .If => do
        let c1 ← children.get? 1
        let c2 ← children.get? 2
        let c3 ← children.get? 3
        let b1 ← rec c1
        let b2 ← rec c2
        let b3 ← rec c3
        some (.mk .IfStmt [b1, b2, b3])
      | .Definition => rec c0
      | .Terminal .While => do
        let c1 ← children.get? 1
        let c2 ← children.get? 2
        let b1 ← rec c1
        let b2 ← rec c2
        some (.mk .WhileLoop [b1, b2])
      | .ID => do
        let c1 ← children.get? 1
        let t1 ← rec c1
        let b0 ← rec c0
        some (.mk t1.node (b0 :: t1.children))
      | .Terminal .Return => do
        let c1 ← children.get? 1
        let b1 ← rec c1
        some (.mk .ReturnValue [b1])
      | _ => some (.mk .Null [])
    | .Definition => do
      let c0 ← children.get? 0
      let n0 ← pt.getNode c0
      match n0 with
      | .Terminal .Const => do
        let c1 ← children.get? 1
        let c3 ← children.get? 3
        let c5 ← children.get? 5
        let b1 ← rec c1
        let b3 ← rec c3
        let b5 ← rec c5
        some (.mk .DeclareConst [b1, b3, b5])
      | .Terminal .Var => do
        let c1 ← children.get? 1
        let c3 ← children.get? 3
        let c5 ← children.get? 5
        let b1 ← rec c1
        let b3 ← rec c3
        let b5 ← rec c5
        some (.mk .DeclareVar [b1, b3, b5])
      | _ => some (.mk .Null [])
    | .OptElse => do
      let c0 ← children.get? 0
      let n0 ← pt.getNode c0
      match n0 with
      | .Terminal .Else => do
        let c1 ← children.get? 1
        rec c1
      | .Empty => some (.mk .Null [])
      | _ => some (.mk .Null [])
    | .AssignOrFnCall => do
      let c0 ← children.get? 0
      let n0 ← pt.getNode c0
      match n0 with
      | .Terminal .LeftParen => do
        let c1 ← children.get? 1
        let b1 ← rec c1
        some (.mk .FnCall [b1])
      | .OptIndex => do
        let c2 ← children.get? 2
        let b0 ← rec c0
        let b2 ← rec c2
        some (.mk .Assign [b0, b2])
      | _ => some (.mk .Null [])
    | .Expression => do
      let c1 ← children.get? 1
      let subtree ← rec c1
      match subtree.node with
      | .AddOp | .SubOp => do
        let c0 ← children.get? 0
        let b0 ← rec c0
        some (rebalanceExpressionTree fuel
          (.mk subtree.node (b0 :: subtree.children)))
      | _ => do
        let c0 ← children.get? 0
        rec c0
    | .Expression1 => do
      let c0 ← children.get? 0
      let n0 ← pt.getNode c0
      match n0 with
      | .Terminal .Add => do
        let c2 ← children.get? 2
        let subtree ← rec c2
        let c1 ← children.get? 1
        let b1 ← rec c1
        match subtree.node with
        | .AddOp | .SubOp =>
          some (.mk .AddOp [.mk subtree.node (b1 :: subtree.children)])
        | _ => some (.mk .AddOp [b1])
      | .Terminal .Sub => do
        let c2 ← children.get? 2
        let subtree ← rec c2
        let c1 ← children.get? 1
        let b1 ← rec c1
        match subtree.node with
        | .AddOp | .SubOp =>
          some (.mk .SubOp [.mk subtree.node (b1 :: subtree.children)])
        | _ => some (.mk .SubOp [b1])
      | _ => some (.mk .Null [])
    | .Term => do
      let c0 ← children.get? 0
      let n0 ← pt.getNode c0
      match n0 with
      | .Factor => do
        let c1 ← children.get? 1
        let subtree ← rec c1
        match subtree.node with
        | .MulOp | .DivOp => do
          let b0 ← rec c0
          some (rebalanceTermTree fuel
            (.mk subtree.node (b0 :: subtree.children)))
        | _ => rec c0
      | .Terminal (.Character c) => some (.mk (.Character c) [])
      | _ => some (.mk .Null [])
    | .Term1 => do
      let c0 ← children.get? 0
      let n0 ← pt.getNode c0
      match n0 with
      | .Terminal .Mul => do
        let c2 ← children.get? 2
        let subtree ← rec c2
        let c1 ← children.get? 1
        let b1 ← rec c1
        match subtree.node with
        | .MulOp | .DivOp =>
          some (.mk .MulOp [.mk subtree.node (b1 :: subtree.children)])
        | _ => some (.mk .MulOp [b1])
      | .Terminal .Div => do
        let c2 ← children.get? 2
        let subtree ← rec c2
        let c1 ← children.get? 1
        let b1 ← rec c1
        match subtree.node with
        | .MulOp | .DivOp =>
          some (.mk .DivOp [.mk subtree.node (b1 :: subtree.children)])
        | _ => some (.mk .DivOp [b1])
      | _ => some (.mk .Null [])
    | .Factor => do
      let c0 ← children.get? 0
      let n0 ← pt.getNode c0
      match n0 with
      | .Primitive => rec c0
      | .ID => do
        let c1 ← children.get? 1
        let subtree ← rec c1
        match subtree.node with
        | .Null => rec c0
        | .Index => do
          let b0 ← rec c0
          some (.mk b0.node [subtree])
        | .InputList => do
          let b0 ← rec c0
          some (.mk .FnCall [b0, subtree])
        | _ => some (.mk .Null [])
      | .Terminal .LeftParen => do
        let c1 ← children.get? 1
        rec c1
      | _ => some (.mk .Null [])
    | .Primitive => do
      let c0 ← children.get? 0
      let n0 ← pt.getNode c0
      match n0 with
      | .Terminal .Sub => do
        let c1 ← children.get? 1
        let subtree ← rec c1
        let newNode := match subtree.node with
          | .Integer num => SyntaxTreeNode.Integer (-1 * num)
          | .Float num => SyntaxTreeNode.Float ('-' :: num)
          | _ => SyntaxTreeNode.Null
        some (.mk newNode [])
      | .Positive => rec c0
      | .Terminal .True => some (.mk .True [])
      | .Terminal .False => some (.mk .False [])
      | _ => some (.mk .Null [])
    | .Positive => do
      let c0 ← children.get? 0
      let n0 ← pt.getNode c0
      match n0 with
      | .Terminal (.Integer num) => some (.mk (.Integer num) [])
      | .Terminal (.Float num) => some (.mk (.Float num) [])
      | _ => some (.mk .Null [])
    | .IDOrFn =>
      if children.length = 1 then do
        let c0 ← children.get? 0
        let n0 ← pt.getNode c0
        if n0.isOptIndex then rec c0
        else some (.mk .Null [])
      else do
        let c1 ← children.get? 1
        rec c1
    | _ => buildAstStepD pt fuel rec node children

set_option maxHeartbeats 800000 in
/-- Arms of the `build_ast_from_parse_node` match for parameter lists,
types, arrays, blocks and statement lists; other symbols fall through
to `buildAstStepC` -/
def buildAstStepB (pt : ParseTree) (fuel : Nat)
    (rec : Nat → Option AbstractSyntaxTree) (node : GrammarSymbol)
    (children : List Nat) : Option AbstractSyntaxTree :=
  match node with
    | .ParamList => do
      let c0 ← children.get? 0
      let n0 ← pt.getNode c0
      match n0 with
      | .Param => do
        let c1 ← children.get? 1
        let b0 ← rec c0
        let b1 ← rec c1
        some (.mk .ParamList [b0, b1])
      | _ => some (.mk .Null [])
    | .Param => do
      let c0 ← children.get? 0
      let c2 ← children.get? 2
      let b0 ← rec c0
      let b2 ← rec c2
      some (.mk .Param [b0, b2])
    | .ParamRest => do
      let c0 ← children.get? 0
      let n0 ← pt.getNode c0
      match n0 with
      | .Terminal .Comma => do
        let c1 ← children.get? 1
        rec c1
      | _ => some (.mk .Null [])
    | .ReturnType => do
      let c0 ← children.get? 0
      let n0 ← pt.getNode c0
      match n0 with
      | .Type => do
        let b0 ← rec c0
        some (.mk .ReturnType [b0])
      | .Terminal .LeftParen => some (.mk .ReturnType [.mk .Void []])
      | .Terminal .Not => some (.mk .ReturnType [.mk .NoReturn []])
      | _ => none
    | .Type => do
      let c0 ← children.get? 0
      let n0 ← pt.getNode c0
      match n0 with
      | .ID => rec c0
      | .Terminal .Int => some (.mk (.Identifier (chs ("int"))) [])
      | .Terminal .FloatKW => some (.mk (.Identifier (chs ("float"))) [])
      | .Terminal .Bool => some (.mk (.Identifier (chs ("bool"))) [])
      | .Terminal .Char => some (.mk (.Identifier (chs ("char"))) [])
      | .Terminal .LeftBracket => do
        let c1 ← children.get? 1
        let tsub ← rec c1
        let tname := match tsub.node with
          | .Identifier id => id
          | _ => []
        let c3 ← children.get? 3
        let lensub ← rec c3
        let lenVal : Int := match lensub.node with
          | .Integer i => i
          | _ => 0
        some (.mk (.Identifier (fmtBracketTy tname (intDigits lenVal))) [])
      | _ => some (.mk .Null [])
    | .Array => do
      let c1 ← children.get? 1
      rec c1
    | .ArrLen => do
      let c0 ← children.get? 0
      let n0 ← pt.getNode c0
      match n0 with
      | .Terminal (.Integer i) => some (.mk (.Integer i) [])
      | _ => some (.mk .Null [])
    | .OptIndex => do
      let c0 ← children.get? 0
      let n0 ← pt.getNode c0
      match n0 with
      | .Terminal .LeftBracket => do
        let c1 ← children.get? 1
        let b1 ← rec c1
        if 3 < children.length then do
          let c3 ← children.get? 3
          let b3 ← rec c3
          some (.mk .Index [b1, b3])
        else some (.mk .Index [b1])
      | _ => some (.mk .Null [])
    | .Block => do
      let c1 ← children.get? 1
      rec c1
    | .StmtList => do
      let c0 ← children.get? 0
      let n0 ← pt.getNode c0
      match n0 with
      | .Empty => some (.mk .Null [])
      | _ => do
        let c1 ← children.get? 1
        let b0 ← rec c0
        let b1 ← rec c1
        some (.mk .StmtSeq [b0, b1])
    | .CondOrArr => do
      let c0 ← children.get? 0
      let n0 ← pt.getNode c0
      match n0 with
      | .Terminal .LeftBracket => some (.mk .Null [])
      | _ => rec c0
    | _ => buildAstStepC pt fuel rec node children

set_option maxHeartbeats 800000 in
/-- Arms of the `build_ast_from_parse_node` match for the node-level and
function-level grammar symbols; other symbols fall through to
`buildAstStepB`.  The four `buildAstStep` functions together are the
single `match node` of the source, split only to keep each definition
of tractable size; the recursive call is abstracted as `rec` and tied
by structural recursion on fuel in `buildAstFromParseNode`.  The
source's unary-minus fold on a float literal (`-1.0 * num`) is
modelled on the text payload by prefixing a minus -/
def buildAstStepA (pt : ParseTree) (fuel : Nat)
    (rec : Nat → Option AbstractSyntaxTree) (node : GrammarSymbol)
    (children : List Nat) : Option AbstractSyntaxTree :=
  match node with
    | .ID => do
      let c0 ← children.get? 0
      rec c0
    | .Terminal (.ID id) => some (.mk (.Identifier id) [])
    | .NodeHeader => do
      let c0 ← children.get? 0
      let c1 ← children.get? 1
      let b0 ← rec c0
      let b1 ← rec c1
      some (.mk .NodeHeader [b0, b1])
    | .OptIDList =>
      if children.length = 1 then some (.mk .Null [])
      else do
        let c1 ← children.get? 1
        rec c1
    | .NodeList => do
      let c0 ← children.get? 0
      let c1 ← children.get? 1
      let b0 ← rec c0
      let b1 ← rec c1
      some (.mk .NodeList [b0, b1])
    | .NodeRest => do
      let c0 ← children.get? 0
      let n0 ← pt.getNode c0
      match n0 with
      | .Terminal .Comma => do
        let c1 ← children.get? 1
        rec c1
      | _ => some (.mk .Null [])
    | .NodeNT => do
      let c1 ← children.get? 1
      let c2 ← children.get? 2
      let b1 ← rec c1
      let b2 ← rec c2
      some (.mk .DeclareNode [b1, b2])
    | .Program => do
      let c0 ← children.get? 0
      let n0 ← pt.getNode c0
      match n0 with
      | .NodeNT => do
        let c1 ← children.get? 1
        let b0 ← rec c0
        let b1 ← rec c1
        some (.mk .NodeSeq [b0, b1])
      | _ => some (.mk .Null [])
    | .NodeBlock => do
      let c1 ← children.get? 1
      rec c1
    | .TLStmtList => do
      let c0 ← children.get? 0
      let n0 ← pt.getNode c0
      match n0 with
      | .TLStmt => do
        let c1 ← children.get? 1
        let b0 ← rec c0
        let b1 ← rec c1
        some (.mk .TLStmtSeq [b0, b1])
      | _ => some (.mk .Null [])
    | .TLStmt => do
      let c0 ← children.get? 0
      let n0 ← pt.getNode c0
      match n0 with
      | .Func => rec c0
      | _ => some (.mk .Null [])
    | .Func => do
      let c1 ← children.get? 1
      let c3 ← children.get? 3
      let c6 ← children.get? 6
      let c7 ← children.get? 7
      let b1 ← rec c1
      let b3 ← rec c3
      let b6 ← rec c6
      let b7 ← rec c7
      some (.mk .DeclareFunc [b1, b3, b6, b7])
    | _ => buildAstStepB pt fuel rec node children

/-- `build_ast_from_parse_node`, entry point of the match: fetch the
node (a missing arena entry is a Rust panic) and its children, then
dispatch. -/
def buildAstStep (pt : ParseTree) (fuel : Nat)
    (rec : Nat → Option AbstractSyntaxTree)
    (idx : Nat) : Option AbstractSyntaxTree := do
  let node ← pt.getNode idx
  let children := pt.getChildren idx
  buildAstStepA pt fuel rec node children

/-- `build_ast_from_parse_node`: lowers the parse tree rooted at `idx`
to an AST.  `none` models a Rust panic (out-of-range child access, the
`todo!()` in the `ReturnType` arm) or fuel exhaustion; children always
have larger arena indices than their parents, so any fuel past the tree
depth is enough. -/
def buildAstFromParseNode (pt : ParseTree) :
    Nat → Nat → Option AbstractSyntaxTree
  | 0, _ => none
  | fuel + 1, idx => buildAstStep pt fuel (buildAstFromParseNode pt fuel) idx

/-- `Parser::generate_ast`: lower the whole parse tree from the root. -/
def generateAst (pt : ParseTree) (fuel : Nat) :
    Option AbstractSyntaxTree :=
  buildAstFromParseNode pt fuel 0

/-! ## Semantic analysis (src/source.rs) -/

/-- `ScopeElem`: entries of the scope stack. -/
inductive ScopeElem where
  | IfScope
  | WhileScope
  | ElseScope
  | Variable (name : Str)
  | Const (name : Str)
  | Func (name : Str)
deriving DecidableEq

/-- `TLElement`: a symbol-table entry — return type, ordered parameter
list, local-variable set (modelled as a duplicate-free list; the Rust
`HashSet` iterates in arbitrary order, which the claims below never
observe) and function body. -/
inductive TLElement where
  | Function (ret : Str) (params : List (Str × Str))
      (varSet : List (Str × Str)) (body : AbstractSyntaxTree)
  | Struct
  | Export

/-- The two-level symbol table `node_name -> function_name -> entry`. -/
abbrev SymbolTable := List (Str × List (Str × TLElement))

/-- One entry of the flat `functions` vector built by `check_semantics`
and `generate_bytecode`: function name, return type, parameter list. -/
abbrev FuncSig := Str × Str × List (Str × Str)

-- Equality on `Except` results is decidable when it is on both the
-- error and value types (used to evaluate concrete runs).
deriving instance DecidableEq for Except

/-- Errors of the semantic layer: a Rust `Err(usize)` code, a Rust
panic (out-of-range child or slice access), or fuel exhaustion. -/
inductive SemErr where
  | rust (code : Nat)
  | panicked
  | fuelOut
deriving DecidableEq

/-- `HashSet<(String, String)>::insert` on the duplicate-free-list
model. -/
def varSetInsert (p : Str × Str) (s : List (Str × Str)) :
    List (Str × Str) :=
  if s.any (fun q => q = p) then s else s ++ [p]

/-- `HashSet::from_iter` on the duplicate-free-list model. -/
def hashSetFromIter (l : List (Str × Str)) : List (Str × Str) :=
  l.foldl (fun acc p => varSetInsert p acc) []

/-- The `while !stack.is_empty() { if pop_back() == m break }` pattern:
drop elements from the back until (and including) the first occurrence
of the marker, emptying the stack if the marker is absent. -/
def popBackScan (m : ScopeElem) : List ScopeElem → List ScopeElem
  | [] => []
  | x :: xs => if x = m then xs else popBackScan m xs

/-- Pop the scope stack back to (and including) a marker. -/
def popBackUntil (stack : List ScopeElem) (m : ScopeElem) :
    List ScopeElem :=
  (popBackScan m stack.reverse).reverse

/-- The duplicate-check-and-append loop of `sst_func`'s `ParamList`
arm: `for p in param { if rest.contains(&p) { return Err(3) }
rest.push(p) }`.  Note it compares whole `(name, type)` pairs. -/
def sstFuncMerge : List (Str × Str) → List (Str × Str) →
    Except SemErr (List (Str × Str))
  | [], rest => .ok rest
  | p :: ps, rest =>
    if rest.any (fun q => q = p) then .error (.rust 3)
    else sstFuncMerge ps (rest ++ [p])

/-- `sst_func`: collect a parameter list from a lowered `ParamList`
subtree (producing reverse source order, as the source does). -/
def sstFunc : Nat → AbstractSyntaxTree → Except SemErr (List (Str × Str))
  | 0, _ => .error .fuelOut
  | fuel + 1, ast =>
    match ast.node with
    | .ParamList =>
      match ast.children with
      | c0 :: c1 :: _ => do
        let param ← sstFunc fuel c0
        let rest ← sstFunc fuel c1
        sstFuncMerge param rest
      | _ => .error .panicked
    | .Param =>
      match ast.children with
      | c0 :: c1 :: _ =>
        let id := match c0.node with
          | .Identifier id => id
          | _ => []
        let t := match c1.node with
          | .Identifier id => id
          | _ => []
        .ok [(id, t)]
      | _ => .error .panicked
    | _ => .ok []

mutual

/-- `sst_node`: record every `DeclareFunc` beneath `ast` into the
symbol table under `nodeId`. -/
def sstNode : Nat → SymbolTable → AbstractSyntaxTree → Str →
    Except SemErr SymbolTable
  | 0, _, _, _ => .error .fuelOut
  | fuel + 1, symtab, ast, nodeId =>
    match ast.node with
    | .DeclareFunc =>
      match ast.children with
      | c0 :: c1 :: c2 :: c3 :: _ => do
        let id := match c0.node with
          | .Identifier id => id
          | _ => []
        let ret ← match c2.children.get? 0 with
          | none => .error .panicked
          | some r =>
            .ok (match r.node with
              | .Identifier rid => rid
              | .NoReturn => chs ("!")
              | _ => [])
        let params ← sstFunc fuel c1
        let set := hashSetFromIter params
        let entry := TLElement.Function ret params set c3
        let map := match assocFind nodeId symtab with
          | some m => m
          | none => []
        if map.any (fun p => p.fst = id) then .error (.rust 2)
        else .ok (assocInsert nodeId (assocInsert id entry map) symtab)
      | _ => .error .panicked
    | _ => sstNodeList fuel symtab ast.children nodeId

/-- The `for child in children` recursion of `sst_node`. -/
def sstNodeList : Nat → SymbolTable → List AbstractSyntaxTree → Str →
    Except SemErr SymbolTable
  | 0, _, _, _ => .error .fuelOut
  | _ + 1, symtab, [], _ => .ok symtab
  | fuel + 1, symtab, c :: rest, nodeId => do
    let symtab2 ← sstNode fuel symtab c nodeId
    sstNodeList fuel symtab2 rest nodeId

end

mutual

/-- `seed_symbol_table`: walk the AST, rejecting duplicate node names
(code 1) and seeding each node's functions. -/
def seedSymbolTable : Nat → SymbolTable → AbstractSyntaxTree →
    Except SemErr SymbolTable
  | 0, _, _ => .error .fuelOut
  | fuel + 1, symtab, ast =>
    match ast.node with
    | .DeclareNode =>
      match ast.children with
      | header :: c1 :: _ => do
        let id ← match header.children.get? 0 with
          | none => .error .panicked
          | some h =>
            .ok (match h.node with
              | .Identifier hid => hid
              | _ => [])
        if symtab.any (fun p => p.fst = id) then .error (.rust 1)
        else sstNode fuel symtab c1 id
      | _ => .error .panicked
    | _ => seedSymbolTableList fuel symtab ast.children

/-- The `for child in children` recursion of `seed_symbol_table`. -/
def seedSymbolTableList : Nat → SymbolTable →
    List AbstractSyntaxTree → Except SemErr SymbolTable
  | 0, _, _ => .error .fuelOut
  | _ + 1, symtab, [] => .ok symtab
  | fuel + 1, symtab, c :: rest => do
    let symtab2 ← seedSymbolTable fuel symtab c
    seedSymbolTableList fuel symtab2 rest

end

mutual

/-- `check_semantics_helper`: scope resolution over a function body.
The Rust function mutates the scope stack (`LinkedList`, back = top,
kept here as the list's end) and the function's local-variable set;
both are threaded and returned.  Note that the `WhileLoop` arm recurses
only into `children[1]` (the loop body) and the `IfStmt` arm only into
`children[1]` and `children[2]` (the branches): condition expressions
are never visited. -/
def checkSemanticsHelper : Nat → List ScopeElem → List (Str × Str) →
    AbstractSyntaxTree →
    Except SemErr (List ScopeElem × List (Str × Str))
  | 0, _, _, _ => .error .fuelOut
  | fuel + 1, stack, varSet, ast =>
    match ast.node with
    | .DeclareConst =>
      match ast.children with
      | c0 :: c1 :: c2 :: _ => do
        let st ← checkSemanticsHelper fuel stack varSet c2
        let id := match c0.node with
          | .Identifier id => id
          | _ => []
        let t := match c1.node with
          | .Identifier i => i
          | _ => []
        if st.fst.any (fun e =>
            e = ScopeElem.Const id ∨ e = ScopeElem.Variable id) then
          .error (.rust 4)
        else
          .ok (st.fst ++ [ScopeElem.Const id],
               varSetInsert (id, t) st.snd)
      | _ => .error .panicked
    | .DeclareVar =>
      match ast.children with
      | c0 :: c1 :: c2 :: _ => do
        let st ← checkSemanticsHelper fuel stack varSet c2
        let id := match c0.node with
          | .Identifier id => id
          | _ => []
        let t := match c1.node with
          | .Identifier i => i
          | _ => []
        if st.fst.any (fun e =>
            e = ScopeElem.Variable id ∨ e = ScopeElem.Const id) then
          .error (.rust 5)
        else
          .ok (st.fst ++ [ScopeElem.Variable id],
               varSetInsert (id, t) st.snd)
      | _ => .error .panicked
    | .Assign =>
      match ast.children with
      | c0 :: c1 :: c2 :: _ => do
        let st1 ← checkSemanticsHelper fuel stack varSet c1
        let st2 ← checkSemanticsHelper fuel st1.fst st1.snd c2
        let id := match c0.node with
          | .Identifier id => id
          | _ => []
        if st2.fst.any (fun e => e = ScopeElem.Variable id) then .ok st2
        else .error (.rust 16)
      | _ => .error .panicked
    | .WhileLoop =>
      match ast.children with
      | _c0 :: c1 :: _ => do
        let st ← checkSemanticsHelper fuel
          (stack ++ [ScopeElem.WhileScope]) varSet c1
        .ok (popBackUntil st.fst ScopeElem.WhileScope, st.snd)
      | _ => .error .panicked
    | .IfStmt =>
      match ast.children with
      | _c0 :: c1 :: c2 :: _ => do
        let st ← checkSemanticsHelper fuel
          (stack ++ [ScopeElem.IfScope]) varSet c1
        let stack2 := popBackUntil st.fst ScopeElem.IfScope
        if ¬ c2.node.isNull then do
          let st2 ← checkSemanticsHelper fuel
            (stack2 ++ [ScopeElem.ElseScope]) st.snd c2
          .ok (popBackUntil st2.fst ScopeElem.ElseScope, st2.snd)
        else .ok (stack2, st.snd)
      | _ => .error .panicked
    | .ParamList =>
      match ast.children with
      | param :: c1 :: _ =>
        match param.children with
        | pc0 :: _ => do
          let id := match pc0.node with
            | .Identifier id => id
            | _ => []
          checkSemanticsHelper fuel
            (stack ++ [ScopeElem.Variable id]) varSet c1
        | _ => .error .panicked
      | _ => .error .panicked
    | .AddOp | .SubOp | .MulOp | .DivOp | .AndOp | .OrOp | .CompEq
    | .CompNeq | .CompLeq | .CompGeq | .CompLess | .CompGreater
    | .Index =>
      match ast.children with
      | c0 :: c1 :: _ => do
        let st ← checkSemanticsHelper fuel stack varSet c0
        checkSemanticsHelper fuel st.fst st.snd c1
      | _ => .error .panicked
    | .Identifier id => do
      let st ← match ast.children with
        | c0 :: _ => checkSemanticsHelper fuel stack varSet c0
        | [] => .ok (stack, varSet)
      if st.fst.any (fun e =>
          e = ScopeElem.Variable id ∨ e = ScopeElem.Const id) then
        .ok st
      else .error (.rust 6)
    | .FnCall =>
      match ast.children with
      | c0 :: c1 :: _ => do
        let st ← checkSemanticsHelper fuel stack varSet c1
        let id := match c0.node with
          | .Identifier id => id
          | _ => []
        if id = chs ("print_int") ∨ id = chs ("print_float") ∨
            id = chs ("print_bool") ∨ id = chs ("print_char") ∨
            id = chs ("println") then
          .ok st
        else if st.fst.any (fun e => e = ScopeElem.Func id) then .ok st
        else .error (.rust 7)
      | _ => .error .panicked
    | _ => checkSemanticsHelperList fuel stack varSet ast.children

/-- The `for child in children` recursion of
`check_semantics_helper`. -/
def checkSemanticsHelperList : Nat → List ScopeElem →
    List (Str × Str) → List AbstractSyntaxTree →
    Except SemErr (List ScopeElem × List (Str × Str))
  | 0, _, _, _ => .error .fuelOut
  | _ + 1, stack, varSet, [] => .ok (stack, varSet)
  | fuel + 1, stack, varSet, c :: rest => do
    let st ← checkSemanticsHelper fuel stack varSet c
    checkSemanticsHelperList fuel st.fst st.snd rest

end

/-- `get_indexed`: strip one bracket layer of a type string per `Index`
level.  A negative literal index is `Err(22)`; a missing semicolon is
`Err(23)`; an invalid slice is a Rust panic. -/
def getIndexed : Nat → Str → AbstractSyntaxTree → Except SemErr Str
  | 0, _, _ => .error .fuelOut
  | fuel + 1, lValue, ast =>
    match ast.node with
    | .Index =>
      match ast.children with
      | c0 :: c1 :: _ => do
        let indexed ← getIndexed fuel lValue c1
        let _ ← match c0.node with
          | .Integer i =>
            if i < 0 then Except.error (SemErr.rust 22) else Except.ok ()
          | _ => Except.ok ()
        match rfindSemicolon indexed with
        | none => .error (.rust 23)
        | some i =>
          match sliceGet indexed 1 i with
          | none => .error .panicked
          | some s => .ok s
      | _ => .error .panicked
    | _ => .ok lValue

mutual

/-- `get_type`: the type (a canonical string) of an expression. -/
def getType : Nat → List FuncSig → List (Str × Str) →
    AbstractSyntaxTree → Except SemErr Str
  | 0, _, _, _ => .error .fuelOut
  | fuel + 1, functions, varSet, ast =>
    match ast.node with
    | .AddOp | .SubOp | .DivOp | .MulOp =>
      match ast.children with
      | c0 :: c1 :: _ => do
        let l ← getType fuel functions varSet c0
        let r ← getType fuel functions varSet c1
        if l = r ∧ (l = chs ("int") ∨ l = chs ("float") ∨
            l = chs ("char")) then
          .ok l
        else .error (.rust 11)
      | _ => .error .panicked
    | .Index =>
      match ast.children with
      | c0 :: c1 :: _ => do
        let l ← getType fuel functions varSet c0
        let r ← if ¬ c1.node.isNull then
            getType fuel functions varSet c1
          else .ok l
        if l = r ∧ l = chs ("int") then .ok l else .error (.rust 23)
      | _ => .error .panicked
    | .CompEq | .CompNeq | .CompLess | .CompGreater | .CompLeq
    | .CompGeq =>
      match ast.children with
      | c0 :: c1 :: _ => do
        let l ← getType fuel functions varSet c0
        let r ← getType fuel functions varSet c1
        if l = r ∧ (l = chs ("int") ∨ l = chs ("float") ∨
            l = chs ("char")) then
          .ok (chs ("bool"))
        else .error (.rust 11)
      | _ => .error .panicked
    | .AndOp | .OrOp =>
      match ast.children with
      | c0 :: c1 :: _ => do
        let l ← getType fuel functions varSet c0
        let r ← getType fuel functions varSet c1
        if l = r ∧ l = chs ("bool") then .ok l else .error (.rust 11)
      | _ => .error .panicked
    | .Identifier id => do
      let _ ← match ast.children with
        | c0 :: _ => do
          let _ ← getType fuel functions varSet c0
          Except.ok ()
        | [] => Except.ok ()
      match varSet.find? (fun q => q.fst = id) with
      | some q =>
        if 0 < ast.children.length then
          match ast.children.get? 0 with
          | some c0 => getIndexed fuel q.snd c0
          | none => .error .panicked
        else .ok q.snd
      | none => .error (.rust 12)
    | .InputList => do
      let inputs ← getInputs fuel functions varSet ast
      match inputs.head? with
      | none => .error .panicked
      | some first =>
        if inputs.all (fun ty => ty = first) then
          .ok (fmtBracketTy first (natDigits inputs.length))
        else .error (.rust 21)
    | .Integer _ => .ok (chs ("int"))
    | .Float _ => .ok (chs ("float"))
    | .True | .False => .ok (chs ("bool"))
    | .Character _ => .ok (chs ("char"))
    | .FnCall =>
      match ast.children with
      | c0 :: c1 :: _ => do
        let params ← getInputs fuel functions varSet c1
        match c0.node with
        | .Identifier id =>
          match functions.find? (fun f =>
              f.fst = id ∧ f.snd.snd.map (fun p => p.snd) = params) with
          | some f => .ok f.snd.fst
          | none =>
            if id = chs ("print_int") ∨ id = chs ("print_float") ∨
                id = chs ("print_bool") ∨ id = chs ("print_char") then
              .ok (chs ("int"))
            else .error (.rust 13)
        | _ => .ok []
      | _ => .error .panicked
    | _ => .ok []

/-- `get_inputs`: the list of argument types of an input list. -/
def getInputs : Nat → List FuncSig → List (Str × Str) →
    AbstractSyntaxTree → Except SemErr (List Str)
  | 0, _, _, _ => .error .fuelOut
  | fuel + 1, functions, varSet, ast =>
    if ast.node.isNull then .ok []
    else
      match ast.children with
      | c0 :: c1 :: _ => do
        let ret ← match c0.node with
          | .InputList => do
            let t ← getInputs fuel functions varSet c0
            match t.head? with
            | none => Except.error SemErr.panicked
            | some first =>
              if t.all (fun ty => ty = first) then
                Except.ok [fmtBracketTy first (natDigits t.length)]
              else Except.error (SemErr.rust 21)
          | .Integer _ => Except.ok [chs ("int")]
          | .Float _ => Except.ok [chs ("float")]
          | .Character _ => Except.ok [chs ("char")]
          | .True | .False => Except.ok [chs ("bool")]
          | .Identifier id =>
            Except.ok (match varSet.find? (fun q => q.fst = id) with
              | some q => [q.snd]
              | none => [])
          | .AddOp | .SubOp | .MulOp | .DivOp => do
            let t ← getType fuel functions varSet c0
            Except.ok [t]
          | _ => Except.ok []
        let rest ← getInputs fuel functions varSet c1
        .ok (ret ++ rest)
      | _ => .error .panicked

end

mutual

/-- `check_types`: the type-checking pass. -/
def checkTypes : Nat → List FuncSig → List (Str × Str) →
    AbstractSyntaxTree → Except SemErr Unit
  | 0, _, _, _ => .error .fuelOut
  | fuel + 1, functions, varSet, ast =>
    match ast.node with
    | .DeclareVar | .DeclareConst =>
      match ast.children with
      | _c0 :: c1 :: c2 :: _ => do
        let lValue := match c1.node with
          | .Identifier id => id
          | _ => []
        let rValue ← getType fuel functions varSet c2
        if lValue ≠ rValue then .error (.rust 8) else .ok ()
      | _ => .error .panicked
    | .Assign =>
      match ast.children with
      | c0 :: c1 :: c2 :: _ => do
        let lValue ← getType fuel functions varSet c0
        let arrType ← getType fuel functions varSet c1
        if arrType ≠ chs ("int") ∧ arrType ≠ [] then .error (.rust 22)
        else do
          let lValue2 ← getIndexed fuel lValue c1
          let rValue ← getType fuel functions varSet c2
          if lValue2 ≠ rValue then .error (.rust 9) else .ok ()
      | _ => .error .panicked
    | .AndOp | .OrOp | .CompEq | .CompNeq | .CompLeq | .CompGeq
    | .CompLess | .CompGreater =>
      match ast.children with
      | c0 :: c1 :: _ => do
        let lValue ← getType fuel functions varSet c0
        let rValue ← getType fuel functions varSet c1
        if lValue ≠ rValue then .error (.rust 10) else .ok ()
      | _ => .error .panicked
    | _ => checkTypesList fuel functions varSet ast.children

/-- The `for child in children` recursion of `check_types`. -/
def checkTypesList : Nat → List FuncSig → List (Str × Str) →
    List AbstractSyntaxTree → Except SemErr Unit
  | 0, _, _, _ => .error .fuelOut
  | _ + 1, _, _, [] => .ok ()
  | fuel + 1, functions, varSet, c :: rest => do
    let _ ← checkTypes fuel functions varSet c
    checkTypesList fuel functions varSet rest

end

mutual

/-- `check_return_func_1`: reject any `ReturnValue` (`Err(14)`) in the
subtree. -/
def checkReturnFunc1 : Nat → AbstractSyntaxTree → Except SemErr Unit
  | 0, _ => .error .fuelOut
  | fuel + 1, ast =>
    match ast.node with
    | .ReturnValue => .error (.rust 14)
    | _ => checkReturnFunc1List fuel ast.children

/-- The `for child in children` recursion of `check_return_func_1`. -/
def checkReturnFunc1List : Nat → List AbstractSyntaxTree →
    Except SemErr Unit
  | 0, _ => .error .fuelOut
  | _ + 1, [] => .ok ()
  | fuel + 1, c :: rest => do
    let _ ← checkReturnFunc1 fuel c
    checkReturnFunc1List fuel rest

end

/-- The `for child in children` loop of `check_return_func_3`: succeed
as soon as `check_return_func_1` (note: func 1, not func 3) succeeds on
some child; `Err(19)` when no child qualifies. -/
def checkReturnFunc3List : Nat → List AbstractSyntaxTree →
    Except SemErr Unit
  | 0, _ => .error .fuelOut
  | _ + 1, [] => .error (.rust 19)
  | fuel + 1, c :: rest =>
    match checkReturnFunc1 fuel c with
    | .ok _ => .ok ()
    | _ => checkReturnFunc3List fuel rest

/-- `check_return_func_3`: the return-path check for return type
`"!"`. -/
def checkReturnFunc3 : Nat → AbstractSyntaxTree → Except SemErr Unit
  | 0, _ => .error .fuelOut
  | fuel + 1, ast =>
    match ast.node with
    | .WhileLoop => .ok ()
    | .ReturnValue => .error (.rust 18)
    | _ => checkReturnFunc3List fuel ast.children

mutual

/-- `check_return_func_2`: the return-path check for a non-void,
non-`"!"` return type. -/
def checkReturnFunc2 : Nat → List FuncSig → List (Str × Str) →
    AbstractSyntaxTree → Str → Except SemErr Unit
  | 0, _, _, _, _ => .error .fuelOut
  | fuel + 1, functions, varSet, ast, retType =>
    match ast.node with
    | .ReturnValue =>
      match ast.children with
      | c0 :: _ => do
        let t ← getType fuel functions varSet c0
        if t = retType then .ok () else .error (.rust 15)
      | _ => .error .panicked
    | _ => checkReturnFunc2List fuel functions varSet ast.children retType

/-- The `for child in children` loop of `check_return_func_2`: succeed
as soon as some child succeeds; `Err(20)` when none does. -/
def checkReturnFunc2List : Nat → List FuncSig → List (Str × Str) →
    List AbstractSyntaxTree → Str → Except SemErr Unit
  | 0, _, _, _, _ => .error .fuelOut
  | _ + 1, _, _, [], _ => .error (.rust 20)
  | fuel + 1, functions, varSet, c :: rest, retType =>
    match checkReturnFunc2 fuel functions varSet c retType with
    | .ok _ => .ok ()
    | _ => checkReturnFunc2List fuel functions varSet rest retType

end

/-- `check_return`: dispatch on the declared return type. -/
def checkReturn (fuel : Nat) (functions : List FuncSig)
    (varSet : List (Str × Str)) (ast : AbstractSyntaxTree)
    (ret : Str) : Except SemErr Unit :=
  if ret = [] then checkReturnFunc1 fuel ast
  else if ret = chs ("!") then checkReturnFunc3 fuel ast
  else checkReturnFunc2 fuel functions varSet ast ret

/-- The flat `functions` vector gathered by `check_semantics` (and by
`generate_bytecode`) from every node of the symbol table. -/
def gatherFunctions (symtab : SymbolTable) : List FuncSig :=
  symtab.foldl (fun acc nodeTl =>
    nodeTl.snd.foldl (fun acc2 p =>
      match p.snd with
      | .Function ret params _ _ => acc2 ++ [(p.fst, ret, params)]
      | _ => acc2) acc) []

/-- The per-function body of `check_semantics`'s nested loop: build the
initial scope stack (a `Func` marker per function of any node, then a
`Variable` marker per entry of the function's variable set), run scope
resolution (which augments the variable set), then type checking and
return-path checking against the augmented set.  Returns the updated
symbol-table entry (the Rust code mutates the set in place). -/
def checkSemanticsFn (fuel : Nat) (functions : List FuncSig)
    (e : Str × TLElement) : Except SemErr (Str × TLElement) :=
  match e.snd with
  | .Function ret params set tree => do
    let stack0 :=
      functions.map (fun q => ScopeElem.Func q.fst) ++
      set.map (fun p => ScopeElem.Variable p.fst)
    let st ← checkSemanticsHelper fuel stack0 set tree
    let set2 := st.snd
    let _ ← checkTypes fuel functions set2 tree
    let _ ← checkReturn fuel functions set2 tree ret
    .ok (e.fst, .Function ret params set2 tree)
  | _ => .ok e

/-- The inner function loop of `check_semantics`. -/
def checkSemanticsFnList (fuel : Nat) (functions : List FuncSig) :
    List (Str × TLElement) → Except SemErr (List (Str × TLElement))
  | [] => .ok []
  | e :: rest => do
    let e2 ← checkSemanticsFn fuel functions e
    let rest2 ← checkSemanticsFnList fuel functions rest
    .ok (e2 :: rest2)

/-- The outer node loop of `check_semantics`. -/
def checkSemanticsNodeList (fuel : Nat) (functions : List FuncSig) :
    SymbolTable → Except SemErr SymbolTable
  | [] => .ok []
  | n :: rest => do
    let fns2 ← checkSemanticsFnList fuel functions n.snd
    let rest2 ← checkSemanticsNodeList fuel functions rest
    .ok ((n.fst, fns2) :: rest2)

/-- `check_semantics`: gather the flat function vector, then check
every function of every node, returning the updated symbol table. -/
def checkSemantics (fuel : Nat) (symtab : SymbolTable) :
    Except SemErr SymbolTable :=
  checkSemanticsNodeList fuel (gatherFunctions symtab) symtab

/-! ## Bytecode generation (src/source.rs, `generate_bytecode` and
helpers).  Bytes are `Nat` values in 0..255; `u32` addresses are `Nat`
(the address cursor never approaches 2^32 in the inputs considered, and
a Rust debug build would panic on overflow before wrapping). -/

/-- Errors of the codegen layer: a Rust panic (failed `expect`/`unwrap`
or a missing map key) or fuel exhaustion. -/
inductive CgErr where
  | panicked
  | fuelOut
deriving DecidableEq

/-- Rust `len as u32` on an `i32` value (two's-complement cast). -/
def u32cast (i : Int) : Nat := (i % 4294967296).toNat

/-- Back-patching: `for (i, byte) in b.iter().enumerate() {
bytes[loc + i] = *byte }`.  (`List.set` ignores an out-of-range index
where Rust would panic; all recorded patch locations lie inside the
buffer.) -/
def writeBytesAt : List Nat → Nat → List Nat → List Nat
  | bytes, _, [] => bytes
  | bytes, loc, b :: bs => writeBytesAt (bytes.set loc b) (loc + 1) bs

/-- The nested-array size loop shared by `generate_bytecode`'s `main`
allocation preamble and `generate_function_bytecode`'s declaration arm:
multiply out every `; N]` layer, returning the total length and the
innermost element type text. -/
def arrSizeLoop : Nat → Str → Int → Except CgErr (Int × Str)
  | 0, _, _ => .error .fuelOut
  | fuel + 1, s, len =>
    match rfindSemicolon s with
    | none => .ok (len, s)
    | some i =>
      match sliceGet s (i + 2) (s.length - 1) with
      | none => .error .panicked
      | some strLen =>
        match parseI32 strLen with
        | none => .error .panicked
        | some v =>
          match sliceGet s 1 i with
          | none => .error .panicked
          | some s2 => arrSizeLoop fuel s2 (len * v)

/-- The semicolon-stripping loop of `generate_expr_bytecode`'s
`Identifier` arm and `generate_function_bytecode`'s `Assign` arm:
repeatedly take the text between the leading bracket and the last
semicolon, yielding the innermost element type. -/
def stripArrLoop : Nat → Str → Except CgErr Str
  | 0, _ => .error .fuelOut
  | fuel + 1, s =>
    match rfindSemicolon s with
    | none => .ok s
    | some i =>
      match sliceGet s 1 i with
      | none => .error .panicked
      | some s2 => stripArrLoop fuel s2

/-- The stride loop of `generate_index_bytecode`: multiply the nested
lengths, dividing the innermost length back out on the final layer (the
`if last_semicolon == None { len /= ...; break }`); returns the stride
and the type text left in `s` (note the source does not advance `s` on
the breaking iteration). -/
def indexStrideLoop : Nat → Str → Int → Except CgErr (Int × Str)
  | 0, _, _ => .error .fuelOut
  | fuel + 1, s, len =>
    match rfindSemicolon s with
    | none => .ok (len, s)
    | some i =>
      match sliceGet s (i + 2) (s.length - 1) with
      | none => .error .panicked
      | some strLen =>
        match parseI32 strLen with
        | none => .error .panicked
        | some v =>
          match sliceGet s 1 i with
          | none => .error .panicked
          | some newT =>
            match rfindSemicolon newT with
            | none => .ok ((len * v).tdiv v, s)
            | some _ => indexStrideLoop fuel newT (len * v)

/-- `get_type(...).expect("could not get type")`: a type error (or fuel
exhaustion) during codegen is a Rust panic. -/
def getTypeExpect (fuel : Nat) (functions : List FuncSig)
    (varSet : List (Str × Str)) (ast : AbstractSyntaxTree) :
    Except CgErr Str :=
  match getType fuel functions varSet ast with
  | .ok t => .ok t
  | .error _ => .error .panicked

/-- The big-endian bit pattern of an `f32` literal
(`num.to_be_bytes()`).  IEEE-754 encoding is not modelled — no claim
observes float bytecode — so a fixed placeholder pattern is used. -/
def f32beBytes (_text : Str) : List Nat := [0x0, 0x0, 0x0, 0x0]

/-- The `for _ in 0..len` store-slice loop of
`generate_function_bytecode`'s declaration arm: emit `len` copies of
the given array-store opcode followed by the address. -/
def repeatStoreArr (op : Nat) (addr : Nat) (len : Int) : List Nat :=
  (List.range len.toNat).foldl (fun acc _ => acc ++ op :: u32be addr) []

/-- `build_arr_helper`. -/
def buildArrHelper : Nat → AbstractSyntaxTree → AbstractSyntaxTree →
    Except CgErr AbstractSyntaxTree
  | 0, _, _ => .error .fuelOut
  | fuel + 1, left, right =>
    match left.node with
    | .Null => .ok right
    | .InputList =>
      match left.children with
      | l0 :: l1 :: _ => do
        let sub ← buildArrHelper fuel l1 right
        .ok (.mk .InputList [l0, sub])
      | _ => .error .panicked
    | _ => .ok (.mk .InputList [left, right])

/-- `build_arr_from_input_list`: flatten a nested input list. -/
def buildArrFromInputList : Nat → AbstractSyntaxTree →
    Except CgErr AbstractSyntaxTree
  | 0, _ => .error .fuelOut
  | fuel + 1, ast =>
    if ¬ ast.node.isInputListNode then .ok ast
    else
      match ast.children with
      | c0 :: c1 :: _ => do
        let left ← buildArrFromInputList fuel c0
        let right ← buildArrFromInputList fuel c1
        buildArrHelper fuel left right
      | _ => .error .panicked

mutual

/-- `generate_function_bytecode`: statement-level code emission.  The
mutable `bytes` buffer and `calls` fixup list are threaded and
returned. -/
def generateFunctionBytecode : Nat → List FuncSig →
    List (Str × Str) → List (Str × (Str × Nat)) → List Nat →
    List (Nat × Str) → AbstractSyntaxTree →
    Except CgErr (List Nat × List (Nat × Str))
  | 0, _, _, _, _, _, _ => .error .fuelOut
  | fuel + 1, functions, varSet, varAddrs, bytes, calls, ast =>
    match ast.node with
    | .DeclareConst | .DeclareVar =>
      match ast.children with
      | c0 :: _c1 :: c2 :: _ => do
        let st ← generateExprBytecode fuel functions varSet varAddrs
          bytes calls c2
        let id := match c0.node with
          | .Identifier id => id
          | _ => []
        match assocFind id varAddrs with
        | none => .error .panicked
        | some ta =>
          let t := ta.fst
          let addr := ta.snd
          if t = chs ("int") then
            .ok (st.fst ++ [0x24] ++ u32be addr, st.snd)
          else if t = chs ("float") then
            .ok (st.fst ++ [0x25] ++ u32be addr, st.snd)
          else if t = chs ("bool") then
            .ok (st.fst ++ [0x2A] ++ u32be addr, st.snd)
          else if t = chs ("char") then
            .ok (st.fst ++ [0x2E] ++ u32be addr, st.snd)
          else
            match t with
            | [] => .error .panicked
            | c :: _ =>
              if c = '[' then do
                let ls ← arrSizeLoop fuel t 1
                let slice :=
                  if ls.snd = chs ("int") then
                    repeatStoreArr 0x87 addr ls.fst
                  else if ls.snd = chs ("float") then
                    repeatStoreArr 0x88 addr ls.fst
                  else if ls.snd = chs ("bool") then
                    repeatStoreArr 0x89 addr ls.fst
                  else if ls.snd = chs ("char") then
                    repeatStoreArr 0x8A addr ls.fst
                  else [0x0]
                .ok (st.fst ++ slice, st.snd)
              else .ok (st.fst ++ [0x0] ++ u32be addr, st.snd)
      | _ => .error .panicked
    | .Assign =>
      match ast.children with
      | c0 :: c1 :: c2 :: _ => do
        let st ← generateExprBytecode fuel functions varSet varAddrs
          bytes calls c2
        let id := match c0.node with
          | .Identifier id => id
          | _ => []
        match assocFind id varAddrs with
        | none => .error .panicked
        | some ta => do
          let t := ta.fst
          let addr := ta.snd
          let st2 ←
            if c1.node.isIndexNode then
              generateIndexBytecode fuel functions varSet varAddrs
                st.fst st.snd c1 t
            else .ok st
          let opcode ←
            if t = chs ("int") then Except.ok 0x24
            else if t = chs ("float") then Except.ok 0x25
            else if t = chs ("bool") then Except.ok 0x2A
            else if t = chs ("char") then Except.ok 0x2E
            else if c1.node.isIndexNode then do
              let s ← stripArrLoop fuel t
              Except.ok (if s = chs ("int") then 0x87
                else if s = chs ("float") then 0x88
                else if s = chs ("bool") then 0x89
                else if s = chs ("char") then 0x8A
                else 0x0)
            else Except.ok 0x0
          .ok (st2.fst ++ [opcode] ++ u32be addr, st2.snd)
      | _ => .error .panicked
    | .FnCall =>
      match ast.children with
      | c0 :: c1 :: _ => do
        let id := match c0.node with
          | .Identifier id => id
          | _ => []
        let bytes1 := bytes ++ [0x10, 0x0, 0x0, 0x0, 0x0]
        let retLoc := bytes1.length - 4
        let st ← generateInputsBytecode fuel functions varSet varAddrs
          bytes1 calls c1
        let bytes2 := st.fst ++ [0x5A, 0x0, 0x0, 0x0, 0x0]
        let calls2 := st.snd ++ [(bytes2.length - 4, id)]
        .ok (writeBytesAt bytes2 retLoc (u32be bytes2.length), calls2)
      | _ => .error .panicked
    | .WhileLoop =>
      match ast.children with
      | c0 :: c1 :: _ => do
        let returnTo := bytes.length
        let st ← generateExprBytecode fuel functions varSet varAddrs
          bytes calls c0
        let bytes1 := st.fst ++ [0x51, 0x0, 0x0, 0x0, 0x0]
        let jumpLoc := bytes1.length - 4
        let st2 ← generateFunctionBytecode fuel functions varSet
          varAddrs bytes1 st.snd c1
        let bytes2 := st2.fst ++ [0x5A] ++ u32be returnTo
        .ok (writeBytesAt bytes2 jumpLoc (u32be bytes2.length), st2.snd)
      | _ => .error .panicked
    | .IfStmt =>
      match ast.children with
      | c0 :: c1 :: c2 :: _ => do
        let st ← generateExprBytecode fuel functions varSet varAddrs
          bytes calls c0
        let bytes1 := st.fst ++ [0x51, 0x0, 0x0, 0x0, 0x0]
        let jumpLoc := bytes1.length - 4
        let st2 ← generateFunctionBytecode fuel functions varSet
          varAddrs bytes1 st.snd c1
        let bytes2 := st2.fst ++ [0x5A, 0x0, 0x0, 0x0, 0x0]
        let bytes3 := writeBytesAt bytes2 jumpLoc (u32be bytes2.length)
        let jumpLoc2 := bytes3.length - 4
        let st3 ← generateFunctionBytecode fuel functions varSet
          varAddrs bytes3 st2.snd c2
        .ok (writeBytesAt st3.fst jumpLoc2 (u32be st3.fst.length),
             st3.snd)
      | _ => .error .panicked
    | .ReturnValue =>
      match ast.children with
      | c0 :: _ => do
        let st ← generateExprBytecode fuel functions varSet varAddrs
          bytes calls c0
        .ok (st.fst ++ [0x5B], st.snd)
      | _ => .error .panicked
    | _ =>
      generateFunctionBytecodeList fuel functions varSet varAddrs
        bytes calls ast.children

/-- The `for child in children` recursion of
`generate_function_bytecode`. -/
def generateFunctionBytecodeList : Nat → List FuncSig →
    List (Str × Str) → List (Str × (Str × Nat)) → List Nat →
    List (Nat × Str) → List AbstractSyntaxTree →
    Except CgErr (List Nat × List (Nat × Str))
  | 0, _, _, _, _, _, _ => .error .fuelOut
  | _ + 1, _, _, _, bytes, calls, [] => .ok (bytes, calls)
  | fuel + 1, functions, varSet, varAddrs, bytes, calls, c :: rest => do
    let st ← generateFunctionBytecode fuel functions varSet varAddrs
      bytes calls c
    generateFunctionBytecodeList fuel functions varSet varAddrs
      st.fst st.snd rest

/-- `generate_expr_bytecode`: expression-level code emission.  Mirrors
the source's two sequential `match` statements: the first emits both
operands of a binary operator, the second emits the node's own code. -/
def generateExprBytecode : Nat → List FuncSig → List (Str × Str) →
    List (Str × (Str × Nat)) → List Nat → List (Nat × Str) →
    AbstractSyntaxTree → Except CgErr (List Nat × List (Nat × Str))
  | 0, _, _, _, _, _, _ => .error .fuelOut
  | fuel + 1, functions, varSet, varAddrs, bytes, calls, ast => do
    let st ←
      match ast.node with
      | .AndOp | .OrOp | .CompEq | .CompNeq | .CompLess | .CompLeq
      | .CompGreater | .CompGeq | .AddOp | .SubOp | .MulOp | .DivOp =>
        match ast.children with
        | c0 :: c1 :: _ => do
          let s1 ← generateExprBytecode fuel functions varSet varAddrs
            bytes calls c0
          generateExprBytecode fuel functions varSet varAddrs
            s1.fst s1.snd c1
        | _ => .error .panicked
      | _ => .ok (bytes, calls)
    match ast.node with
    | .InputList => do
      let tree ← buildArrFromInputList fuel ast
      generateArrBytecode fuel functions varSet varAddrs st.fst st.snd
        tree 0
    | .FnCall =>
      match ast.children with
      | c0 :: c1 :: _ => do
        let id := match c0.node with
          | .Identifier id => id
          | _ => []
        let bytes1 := st.fst ++ [0x10, 0x0, 0x0, 0x0, 0x0]
        let retLoc := bytes1.length - 4
        let st2 ← generateInputsBytecode fuel functions varSet varAddrs
          bytes1 st.snd c1
        let bytes2 := st2.fst ++ [0x5A, 0x0, 0x0, 0x0, 0x0]
        let calls2 := st2.snd ++ [(bytes2.length - 4, id)]
        .ok (writeBytesAt bytes2 retLoc (u32be bytes2.length), calls2)
      | _ => .error .panicked
    | .AndOp => .ok (st.fst ++ [0x58], st.snd)
    | .OrOp => .ok (st.fst ++ [0x59], st.snd)
    | .CompEq =>
      match ast.children with
      | c0 :: _ => do
        let t ← getTypeExpect fuel functions varSet c0
        .ok (st.fst ++ [if t = chs ("int") then 0x52
          else if t = chs ("float") then 0x5C
          else if t = chs ("bool") then 0x62 else 0x0], st.snd)
      | _ => .error .panicked
    | .CompNeq =>
      match ast.children with
      | c0 :: _ => do
        let t ← getTypeExpect fuel functions varSet c0
        .ok (st.fst ++ [if t = chs ("int") then 0x53
          else if t = chs ("float") then 0x5D
          else if t = chs ("bool") then 0x63 else 0x0], st.snd)
      | _ => .error .panicked
    | .CompLess =>
      match ast.children with
      | c0 :: _ => do
        let t ← getTypeExpect fuel functions varSet c0
        .ok (st.fst ++ [if t = chs ("int") then 0x54
          else if t = chs ("float") then 0x5E else 0x0], st.snd)
      | _ => .error .panicked
    | .CompGreater =>
      match ast.children with
      | c0 :: _ => do
        let t ← getTypeExpect fuel functions varSet c0
        .ok (st.fst ++ [if t = chs ("int") then 0x56
          else if t = chs ("float") then 0x60 else 0x0], st.snd)
      | _ => .error .panicked
    | .CompLeq =>
      match ast.children with
      | c0 :: _ => do
        let t ← getTypeExpect fuel functions varSet c0
        .ok (st.fst ++ [if t = chs ("int") then 0x55
          else if t = chs ("float") then 0x5F else 0x0], st.snd)
      | _ => .error .panicked
    | .CompGeq =>
      match ast.children with
      | c0 :: _ => do
        let t ← getTypeExpect fuel functions varSet c0
        .ok (st.fst ++ [if t = chs ("int") then 0x57
          else if t = chs ("float") then 0x61 else 0x0], st.snd)
      | _ => .error .panicked
    | .AddOp => do
      let t ← getTypeExpect fuel functions varSet ast
      .ok (st.fst ++ [if t = chs ("int") then 0x30
        else if t = chs ("float") then 0x31
        else if t = chs ("char") then 0x38 else 0x0], st.snd)
    | .SubOp => do
      let t ← getTypeExpect fuel functions varSet ast
      .ok (st.fst ++ [if t = chs ("int") then 0x32
        else if t = chs ("float") then 0x33
        else if t = chs ("char") then 0x39 else 0x0], st.snd)
    | .MulOp => do
      let t ← getTypeExpect fuel functions varSet ast
      .ok (st.fst ++ [if t = chs ("int") then 0x34
        else if t = chs ("float") then 0x35 else 0x0], st.snd)
    | .DivOp => do
      let t ← getTypeExpect fuel functions varSet ast
      .ok (st.fst ++ [if t = chs ("int") then 0x36
        else if t = chs ("float") then 0x37 else 0x0], st.snd)
    | .Integer num => .ok (st.fst ++ 0x10 :: i32be num, st.snd)
    | .Float text => .ok (st.fst ++ 0x11 :: f32beBytes text, st.snd)
    | .True => .ok (st.fst ++ [0x14, 0x1], st.snd)
    | .False => .ok (st.fst ++ [0x14, 0x0], st.snd)
    | .Character c => .ok (st.fst ++ [0x15, c.toNat % 256], st.snd)
    | .Identifier id =>
      match assocFind id varAddrs with
      | none => .error .panicked
      | some ta => do
        let t := ta.fst
        let addr := ta.snd
        let st2 ←
          match ast.children with
          | c0 :: _ =>
            generateIndexBytecode fuel functions varSet varAddrs
              st.fst st.snd c0 t
          | [] => .ok st
        let opcode ←
          if t = chs ("int") then Except.ok 0x22
          else if t = chs ("float") then Except.ok 0x23
          else if t = chs ("bool") then Except.ok 0x29
          else if t = chs ("char") then Except.ok 0x2D
          else
            match t with
            | [] => Except.error CgErr.panicked
            | c :: _ =>
              if c = '[' then do
                let s ← stripArrLoop fuel t
                Except.ok (if s = chs ("int") then 0x82
                  else if s = chs ("float") then 0x83
                  else if s = chs ("bool") then 0x84
                  else if s = chs ("char") then 0x85
                  else 0x0)
              else Except.ok 0x0
        .ok (st2.fst ++ [opcode] ++ u32be addr, st2.snd)
    | _ =>
      generateExprBytecodeList fuel functions varSet varAddrs
        st.fst st.snd ast.children

/-- The `for child in children` recursion of
`generate_expr_bytecode`. -/
def generateExprBytecodeList : Nat → List FuncSig → List (Str × Str) →
    List (Str × (Str × Nat)) → List Nat → List (Nat × Str) →
    List AbstractSyntaxTree → Except CgErr (List Nat × List (Nat × Str))
  | 0, _, _, _, _, _, _ => .error .fuelOut
  | _ + 1, _, _, _, bytes, calls, [] => .ok (bytes, calls)
  | fuel + 1, functions, varSet, varAddrs, bytes, calls, c :: rest => do
    let st ← generateExprBytecode fuel functions varSet varAddrs
      bytes calls c
    generateExprBytecodeList fuel functions varSet varAddrs
      st.fst st.snd rest

/-- `generate_inputs_bytecode`: arguments are emitted right-to-left
(the rest of the list before the head). -/
def generateInputsBytecode : Nat → List FuncSig → List (Str × Str) →
    List (Str × (Str × Nat)) → List Nat → List (Nat × Str) →
    AbstractSyntaxTree → Except CgErr (List Nat × List (Nat × Str))
  | 0, _, _, _, _, _, _ => .error .fuelOut
  | fuel + 1, functions, varSet, varAddrs, bytes, calls, ast =>
    match ast.node with
    | .InputList =>
      match ast.children with
      | c0 :: c1 :: _ => do
        let st ← generateInputsBytecode fuel functions varSet varAddrs
          bytes calls c1
        generateExprBytecode fuel functions varSet varAddrs
          st.fst st.snd c0
      | _ => .error .panicked
    | _ =>
      generateInputsBytecodeList fuel functions varSet varAddrs
        bytes calls ast.children

/-- The `for child in children` recursion of
`generate_inputs_bytecode`. -/
def generateInputsBytecodeList : Nat → List FuncSig →
    List (Str × Str) → List (Str × (Str × Nat)) → List Nat →
    List (Nat × Str) → List AbstractSyntaxTree →
    Except CgErr (List Nat × List (Nat × Str))
  | 0, _, _, _, _, _, _ => .error .fuelOut
  | _ + 1, _, _, _, bytes, calls, [] => .ok (bytes, calls)
  | fuel + 1, functions, varSet, varAddrs, bytes, calls, c :: rest => do
    let st ← generateInputsBytecode fuel functions varSet varAddrs
      bytes calls c
    generateInputsBytecodeList fuel functions varSet varAddrs
      st.fst st.snd rest

/-- `generate_arr_bytecode`: emit each array element (last first)
followed by its index constant. -/
def generateArrBytecode : Nat → List FuncSig → List (Str × Str) →
    List (Str × (Str × Nat)) → List Nat → List (Nat × Str) →
    AbstractSyntaxTree → Nat →
    Except CgErr (List Nat × List (Nat × Str))
  | 0, _, _, _, _, _, _, _ => .error .fuelOut
  | fuel + 1, functions, varSet, varAddrs, bytes, calls, ast, idx =>
    match ast.node with
    | .InputList =>
      match ast.children with
      | c0 :: c1 :: _ => do
        let st ← generateArrBytecode fuel functions varSet varAddrs
          bytes calls c1 (idx + 1)
        let st2 ← generateExprBytecode fuel functions varSet varAddrs
          st.fst st.snd c0
        .ok (st2.fst ++ 0x10 :: u32be idx, st2.snd)
      | _ => .error .panicked
    | _ => .ok (bytes, calls)

/-- `generate_index_bytecode`: emit the index expression, the stride
constant and a multiply, then recurse into the next index level, adding
the offsets. -/
def generateIndexBytecode : Nat → List FuncSig → List (Str × Str) →
    List (Str × (Str × Nat)) → List Nat → List (Nat × Str) →
    AbstractSyntaxTree → Str →
    Except CgErr (List Nat × List (Nat × Str))
  | 0, _, _, _, _, _, _, _ => .error .fuelOut
  | fuel + 1, functions, varSet, varAddrs, bytes, calls, ast, t =>
    match ast.node with
    | .Index =>
      match ast.children with
      | c0 :: c1 :: _ => do
        let st ← generateExprBytecode fuel functions varSet varAddrs
          bytes calls c0
        let ls ← indexStrideLoop fuel t 1
        let bytes1 := st.fst ++ 0x10 :: i32be ls.fst ++ [0x34]
        let st2 ← generateIndexBytecode fuel functions varSet varAddrs
          bytes1 st.snd c1 ls.snd
        if ¬ c1.node.isNull then
          .ok (st2.fst ++ [0x30], st2.snd)
        else .ok st2
      | _ => .error .panicked
    | _ => .ok (bytes, calls)

end

/-- The `main` local-variable allocation loop of `generate_bytecode`
(the `for (var_id, var_type) in var_set` over `main`'s variable set):
emit an allocation opcode and address per variable, and for arrays the
element size byte and total length computed by the nested-size loop;
threads the variable-address map and the address cursor. -/
def allocVarsMain (fuel : Nat) :
    List (Str × Str) → List Nat → List (Str × (Str × Nat)) → Nat →
    Except CgErr (List Nat × List (Str × (Str × Nat)) × Nat)
  | [], bytes, varAddrs, addr => .ok (bytes, varAddrs, addr)
  | (varId, varType) :: rest, bytes, varAddrs, addr => do
    let varAddrs2 := assocInsert varId (varType, addr) varAddrs
    let opcode ←
      if varType = chs ("int") then Except.ok 0x20
      else if varType = chs ("float") then Except.ok 0x21
      else if varType = chs ("bool") then Except.ok 0x28
      else if varType = chs ("char") then Except.ok 0x2C
      else
        match varType with
        | [] => Except.error CgErr.panicked
        | c :: _ => Except.ok (if c = '[' then 0x80 else 0x0)
    let bytes1 := bytes ++ [opcode] ++ u32be addr
    let isArr ← match varType with
      | [] => Except.error CgErr.panicked
      | c :: _ => Except.ok (c == '[')
    let st ←
      if isArr then do
        let ls ← arrSizeLoop fuel varType 1
        let sizeByte :=
          if ls.snd = chs ("int") ∨ ls.snd = chs ("float") then [0x4]
          else if ls.snd = chs ("bool") ∨ ls.snd = chs ("char") then [0x1]
          else []
        let grow :=
          if ls.snd = chs ("int") ∨ ls.snd = chs ("float") then
            4 * u32cast ls.fst
          else if ls.snd = chs ("bool") ∨ ls.snd = chs ("char") then
            1 * u32cast ls.fst
          else 0
        Except.ok (bytes1 ++ sizeByte ++ i32be ls.fst, addr + grow)
      else Except.ok (bytes1, addr)
    let addr2 := st.snd +
      (if varType = chs ("int") ∨ varType = chs ("float") then 4
       else if varType = chs ("bool") ∨ varType = chs ("char") then 1
       else 0)
    allocVarsMain fuel rest st.fst varAddrs2 addr2

/-- The allocation loop used for every non-`main` function: same as
`allocVarsMain` except that the array branch reads only the outermost
`; N]` layer (a single `rfind`/`parse`, no loop — the source differs
here between the two sites). -/
def allocVarsOther (_fuel : Nat) :
    List (Str × Str) → List Nat → List (Str × (Str × Nat)) → Nat →
    Except CgErr (List Nat × List (Str × (Str × Nat)) × Nat)
  | [], bytes, varAddrs, addr => .ok (bytes, varAddrs, addr)
  | (varId, varType) :: rest, bytes, varAddrs, addr => do
    let varAddrs2 := assocInsert varId (varType, addr) varAddrs
    let opcode ←
      if varType = chs ("int") then Except.ok 0x20
      else if varType = chs ("float") then Except.ok 0x21
      else if varType = chs ("bool") then Except.ok 0x28
      else if varType = chs ("char") then Except.ok 0x2C
      else
        match varType with
        | [] => Except.error CgErr.panicked
        | c :: _ => Except.ok (if c = '[' then 0x80 else 0x0)
    let bytes1 := bytes ++ [opcode] ++ u32be addr
    let isArr ← match varType with
      | [] => Except.error CgErr.panicked
      | c :: _ => Except.ok (c == '[')
    let st ←
      if isArr then
        match rfindSemicolon varType with
        | none => Except.error CgErr.panicked
        | some last =>
          match sliceGet varType (last + 2) (varType.length - 1) with
          | none => Except.error CgErr.panicked
          | some lenStr =>
            match parseI32 lenStr with
            | none => Except.error CgErr.panicked
            | some len =>
              match sliceGet varType 1 last with
              | none => Except.error CgErr.panicked
              | some arrType =>
                let sizeByte :=
                  if arrType = chs ("int") ∨ arrType = chs ("float") then
                    [0x4]
                  else if arrType = chs ("bool") ∨
                      arrType = chs ("char") then [0x1]
                  else []
                let grow :=
                  if arrType = chs ("int") ∨ arrType = chs ("float") then
                    4 * u32cast len
                  else if arrType = chs ("bool") ∨
                      arrType = chs ("char") then 1 * u32cast len
                  else 0
                Except.ok (bytes1 ++ sizeByte ++ i32be len, addr + grow)
      else Except.ok (bytes1, addr)
    let addr2 := st.snd +
      (if varType = chs ("int") ∨ varType = chs ("float") then 4
       else if varType = chs ("bool") ∨ varType = chs ("char") then 1
       else 0)
    allocVarsOther _fuel rest st.fst varAddrs2 addr2

/-- The parameter-binding loop of `generate_bytecode` (`for (param_id,
param_type) in params`): emit a store/bind opcode and the parameter's
address (a missing address entry is a Rust panic). -/
def bindParams : List (Str × Str) → List (Str × (Str × Nat)) →
    List Nat → Except CgErr (List Nat)
  | [], _, bytes => .ok bytes
  | (paramId, paramType) :: rest, varAddrs, bytes => do
    match assocFind paramId varAddrs with
    | none => .error .panicked
    | some ta => do
      let opcode ←
        if paramType = chs ("int") then Except.ok 0x24
        else if paramType = chs ("float") then Except.ok 0x25
        else if paramType = chs ("bool") then Except.ok 0x2A
        else if paramType = chs ("char") then Except.ok 0x2E
        else
          match paramType with
          | [] => Except.error CgErr.panicked
          | c :: _ => Except.ok (if c = '[' then 0x81 else 0x0)
      bindParams rest varAddrs (bytes ++ [opcode] ++ u32be ta.snd)

/-- The non-`main` function loop of `generate_bytecode` (`for fn_id in
symbol_table[node_id].keys()`, skipping `main`): location entry,
allocation preamble, parameter binding, body, trailing `ret.void` for a
void function; threads all per-node codegen state. -/
def genOtherFns (fuel : Nat) (functions : List FuncSig) :
    List (Str × TLElement) → List Nat → List (Nat × Str) →
    List (Str × (Str × Nat)) → Nat → List (Str × Nat) →
    Except CgErr
      (List Nat × List (Nat × Str) × List (Str × (Str × Nat)) × Nat ×
       List (Str × Nat))
  | [], bytes, calls, varAddrs, addr, funcLocs =>
    .ok (bytes, calls, varAddrs, addr, funcLocs)
  | (fnId, e) :: rest, bytes, calls, varAddrs, addr, funcLocs =>
    if fnId = chs ("main") then
      genOtherFns fuel functions rest bytes calls varAddrs addr funcLocs
    else
      match e with
      | .Function retType params varSet tree => do
        let funcLocs2 := assocInsert fnId bytes.length funcLocs
        let a ← allocVarsOther fuel varSet bytes varAddrs addr
        let bytes1 ← bindParams params a.snd.fst a.fst
        let st ← generateFunctionBytecode fuel functions varSet
          a.snd.fst bytes1 calls tree
        let bytes2 := if retType = [] then st.fst ++ [0x64] else st.fst
        genOtherFns fuel functions rest bytes2 st.snd a.snd.fst
          a.snd.snd funcLocs2
      | _ =>
        genOtherFns fuel functions rest bytes calls varAddrs addr
          funcLocs

/-- The call-fixup loop of `generate_bytecode` (`for (call_loc,
function_name) in calls`): overwrite the four placeholder bytes with
the function's recorded offset; indexing `function_locations` with a
name that has no entry in this node's map is a Rust panic. -/
def applyCallFixups : List (Nat × Str) → List (Str × Nat) →
    List Nat → Except CgErr (List Nat)
  | [], _, bytes => .ok bytes
  | (callLoc, fname) :: rest, funcLocs, bytes =>
    match assocFind fname funcLocs with
    | none => .error .panicked
    | some loc => applyCallFixups rest funcLocs
        (writeBytesAt bytes callLoc (u32be loc))

/-- The `main` section of `generate_bytecode`'s per-node body — the
code before the print-stub insertion: look up `main` (a node without
`main` is a Rust panic; a non-`Function` entry emits nothing), emit its
allocation preamble, its parameter binding and its body, and append the
trailing `ret.void` for a void `main`; returns the section's bytes
together with the pending call list, the variable-address map, the
address cursor and the location map holding `main -> 0`. -/
def mainSection (fuel : Nat) (functions : List FuncSig)
    (nodeFns : List (Str × TLElement)) :
    Except CgErr
      (List Nat × List (Nat × Str) × List (Str × (Str × Nat)) × Nat ×
       List (Str × Nat)) := do
  let mainEntry ← match assocFind (chs ("main")) nodeFns with
    | none => Except.error CgErr.panicked
    | some e => Except.ok e
  match mainEntry with
  | .Function retType params varSet tree => do
    let funcLocs : List (Str × Nat) :=
      assocInsert (chs ("main")) 0 []
    let a ← allocVarsMain fuel varSet [] [] 0
    let bytes1 ← bindParams params a.snd.fst a.fst
    let g ← generateFunctionBytecode fuel functions varSet a.snd.fst
      bytes1 [] tree
    let bytes2 := if retType = [] then g.fst ++ [0x64] else g.fst
    Except.ok (bytes2, g.snd, a.snd.fst, a.snd.snd, funcLocs)
  | _ => Except.ok ([], [], [], 0, [])

/-- The per-node body of `generate_bytecode`'s `for node_id in
symbol_table.keys()` loop (file writing is out of scope; the produced
byte vector is returned): `main`'s section first, then the five print
stubs, then every other function, then the call fixups. -/
def generateNodeBytecode (fuel : Nat) (functions : List FuncSig)
    (nodeFns : List (Str × TLElement)) : Except CgErr (List Nat) := do
  let st ← mainSection fuel functions nodeFns
  let bytes := st.fst
  let calls := st.snd.fst
  let varAddrs := st.snd.snd.fst
  let addr := st.snd.snd.snd.fst
  let funcLocs := st.snd.snd.snd.snd
  let funcLocs := assocInsert (chs ("print_int")) bytes.length funcLocs
  let bytes := bytes ++ [0x90, 0x64]
  let funcLocs := assocInsert (chs ("print_float")) bytes.length funcLocs
  let bytes := bytes ++ [0x91, 0x64]
  let funcLocs := assocInsert (chs ("print_bool")) bytes.length funcLocs
  let bytes := bytes ++ [0x92, 0x64]
  let funcLocs := assocInsert (chs ("print_char")) bytes.length funcLocs
  let bytes := bytes ++ [0x93, 0x64]
  let funcLocs := assocInsert (chs ("println")) bytes.length funcLocs
  let bytes := bytes ++ [0x15, 0xA, 0x93, 0x64]
  let res ← genOtherFns fuel functions nodeFns bytes calls varAddrs
    addr funcLocs
  applyCallFixups res.snd.fst res.snd.snd.snd.snd res.fst

/-- `generate_bytecode` (file writing and the JSON graph are out of
scope): the flat function vector, then one byte vector per node. -/
def generateBytecode (fuel : Nat) (symtab : SymbolTable) :
    Except CgErr (List (Str × List Nat)) :=
  let functions := gatherFunctions symtab
  symtab.foldlM (fun acc n => do
    let bytes ← generateNodeBytecode fuel functions n.snd
    pure (acc ++ [(n.fst, bytes)])) []

/-! ## Concrete inputs for the claims -/

/-- Token stream of
`node A { fn main() -> () { while true && true && true { } } }` —
an expression chaining two `&&` at the same precedence level. -/
def andChainTokens : List Token :=
  [.Node, .ID (chs ("A")), .LeftBrace, .Fn, .ID (chs ("main")),
   .LeftParen, .RightParen, .Arrow, .LeftParen, .RightParen, .LeftBrace,
   .While, .True, .LogicalAnd, .True, .LogicalAnd, .True,
   .LeftBrace, .RightBrace, .RightBrace, .RightBrace]

/-- Token stream of
`node A { fn main() -> () { return 1 - 2 - 3; } }`. -/
def subChainTokens : List Token :=
  [.Node, .ID (chs ("A")), .LeftBrace, .Fn, .ID (chs ("main")),
   .LeftParen, .RightParen, .Arrow, .LeftParen, .RightParen, .LeftBrace,
   .Return, .Integer 1, .Sub, .Integer 2, .Sub, .Integer 3, .Semicolon,
   .RightBrace, .RightBrace]

/-- Parse then lower the `1 - 2 - 3` program. -/
def subChainLowered : Option AbstractSyntaxTree :=
  match parse subChainTokens 10000 with
  | POut.accept pt => generateAst pt 10000
  | _ => none

/-- The expected AST of the `1 - 2 - 3` program, with the left-leaning
`Sub(Sub(1,2),3)` under the `ReturnValue`. -/
def subChainExpectedAst : AbstractSyntaxTree :=
  .mk .NodeSeq
    [.mk .DeclareNode
      [.mk .NodeHeader [.mk (.Identifier (chs ("A"))) [], .mk .Null []],
       .mk .TLStmtSeq
        [.mk .DeclareFunc
          [.mk (.Identifier (chs ("main"))) [],
           .mk .Null [],
           .mk .ReturnType [.mk .Void []],
           .mk .StmtSeq
            [.mk .ReturnValue
              [.mk .SubOp
                [.mk .SubOp
                  [.mk (.Integer 1) [], .mk (.Integer 2) []],
                 .mk (.Integer 3) []]],
             .mk .Null []]],
         .mk .Null []]],
     .mk .Null []]

/-- Lowered body of `fn main() -> ! { var x: int = 1; }`: a body whose
first (and only) statement is not a `WhileLoop`. -/
def bodyNoLoopVar : AbstractSyntaxTree :=
  .mk .StmtSeq
    [.mk .DeclareVar
      [.mk (.Identifier (chs ("x"))) [],
       .mk (.Identifier (chs ("int"))) [],
       .mk (.Integer 1) []],
     .mk .Null []]

/-- Lowered body of `fn main() -> ! { return 1; }`: a body containing a
`ReturnValue`. -/
def bodyReturnOnly : AbstractSyntaxTree :=
  .mk .StmtSeq [.mk .ReturnValue [.mk (.Integer 1) []], .mk .Null []]

/-- Lowered body of `fn main() -> ! { while true { } return 1; }`: the
body begins with a `WhileLoop` but also contains a `ReturnValue`. -/
def bodyWhileThenReturn : AbstractSyntaxTree :=
  .mk .StmtSeq
    [.mk .WhileLoop [.mk .True [], .mk .Null []],
     .mk .StmtSeq [.mk .ReturnValue [.mk (.Integer 1) []], .mk .Null []]]

/-- Lowered body of `{ while q { } }` where `q` is declared nowhere:
the unresolved identifier occurs only in the while condition. -/
def bodyWhileUnresolvedCond : AbstractSyntaxTree :=
  .mk .StmtSeq
    [.mk .WhileLoop [.mk (.Identifier (chs ("q"))) [], .mk .Null []],
     .mk .Null []]

/-- Lowered parameter list of a two-parameter function
`(n1: t1, n2: t2)`. -/
def paramTwo (n1 t1 n2 t2 : Str) : AbstractSyntaxTree :=
  .mk .ParamList
    [.mk .Param [.mk (.Identifier n1) [], .mk (.Identifier t1) []],
     .mk .ParamList
      [.mk .Param [.mk (.Identifier n2) [], .mk (.Identifier t2) []],
       .mk .Null []]]

/-- Lowered body of `{ var x: int = 1; var x: int = 2; }` (spec
scenario S3). -/
def bodyS3 : AbstractSyntaxTree :=
  .mk .StmtSeq
    [.mk .DeclareVar
      [.mk (.Identifier (chs ("x"))) [],
       .mk (.Identifier (chs ("int"))) [],
       .mk (.Integer 1) []],
     .mk .StmtSeq
      [.mk .DeclareVar
        [.mk (.Identifier (chs ("x"))) [],
         .mk (.Identifier (chs ("int"))) [],
         .mk (.Integer 2) []],
       .mk .Null []]]

/-- Lowered body of `{ f(); }`. -/
def bodyCallF : AbstractSyntaxTree :=
  .mk .StmtSeq
    [.mk .FnCall [.mk (.Identifier (chs ("f"))) [], .mk .Null []],
     .mk .Null []]

/-- Symbol table of the two-node program
`node A { fn main() -> () { f(); } }
 node B { fn main() -> () { } fn f() -> () { } }` —
node A's `main` calls `f`, which is declared in node B. -/
def symtabCross : SymbolTable :=
  [(chs ("A"), [(chs ("main"), .Function [] [] [] bodyCallF)]),
   (chs ("B"), [(chs ("main"), .Function [] [] [] (.mk .Null [])),
                (chs ("f"), .Function [] [] [] (.mk .Null []))])]

/-- Node A's function map from `symtabCross`. -/
def nodeACross : List (Str × TLElement) :=
  [(chs ("main"), .Function [] [] [] bodyCallF)]

/-- Lowered body of `{ return 7; }`. -/
def bodyReturn7 : AbstractSyntaxTree :=
  .mk .StmtSeq [.mk .ReturnValue [.mk (.Integer 7) []], .mk .Null []]

/-- Function map of a node with `main` (void, empty body), `f`
(returns `int`, body `return 7;`) and `g` (void, empty body). -/
def nodeFnsStub : List (Str × TLElement) :=
  [(chs ("main"), .Function [] [] [] (.mk .Null [])),
   (chs ("f"), .Function (chs ("int")) [] [] bodyReturn7),
   (chs ("g"), .Function [] [] [] (.mk .Null []))]

/-- The flat function vector of the node above. -/
def functionsStub : List FuncSig :=
  gatherFunctions [(chs ("A"), nodeFnsStub)]

/-- Bytecode of `main`'s section (no locals, no parameters, empty
body, void return: a single `ret.void`). -/
def mainSecStub : List Nat := [0x64]

/-- Bytecode of the five print built-in stubs, in emission order. -/
def stubSecStub : List Nat :=
  [0x90, 0x64, 0x91, 0x64, 0x92, 0x64, 0x93, 0x64, 0x15, 0xA, 0x93,
   0x64]

/-- Bytecode of `f`'s section (`push.i32 7; ret.val`). -/
def fSecStub : List Nat := [0x10, 0x0, 0x0, 0x0, 0x7, 0x5B]

/-- Bytecode of `g`'s section (a single `ret.void`). -/
def gSecStub : List Nat := [0x64]

/-! ## Theorems for the claims -/

/-- Claim C1: the spec asserts `a OP b OP c` lowers left-associatively
for every operator class including `&&`; in the code, `BoolTerm1`'s
`&&` production pushes `Conditional1` (which has no production for a
`&&` lookahead) instead of `BoolTerm1`, so a chained `&&` is a fatal
syntax error and never reaches AST lowering: the parser rejects
`while true && true && true { }` with `syntax error: expected
expression 5`. -/
theorem C1_and_chain_parse_error :
    parse andChainTokens 10000 =
    POut.err ("syntax error: expected expression 5") := rfl

/-- Supporting evidence for claim C1's positive half: the `1 - 2 - 3`
program parses and lowers to `Sub(Sub(1,2),3)`, the left-leaning
tree. -/
theorem subChain_lowers_left_leaning :
    subChainLowered = some subChainExpectedAst := rfl

/-- Claim C2: the spec requires a `"!"` function's body to begin with a
`WhileLoop` and contain no `ReturnValue`; because `check_return_func_3`
recurses through `check_return_func_1` (which merely checks for the
absence of `ReturnValue` in one child), the code accepts a body whose
first statement is a plain declaration, a body that is a single
`return`, and a body with a leading loop followed by a `return`. -/
theorem C2_noreturn_check_accepts_non_loop_bodies :
    checkReturn 50 [] [] bodyNoLoopVar (chs ("!")) = Except.ok () ∧
    checkReturn 50 [] [] bodyReturnOnly (chs ("!")) = Except.ok () ∧
    checkReturn 50 [] [] bodyWhileThenReturn (chs ("!")) =
      Except.ok () := ⟨rfl, rfl, rfl⟩

/-- Claim C3: the cross-node program `symtabCross` passes semantic
analysis unchanged (name resolution is a flat namespace, so node A's
call of node B's `f` is accepted), yet bytecode generation for node A
panics: the fixup loop indexes `function_locations["f"]`, and node A's
map has no entry for `f`. -/
theorem C3_cross_node_call_fixup_panics :
    checkSemantics 100 symtabCross = Except.ok symtabCross ∧
    generateNodeBytecode 100 (gatherFunctions symtabCross) nodeACross =
      Except.error CgErr.panicked := ⟨rfl, rfl⟩

/-- Claim C4: the lexer's state 9 returns `LogicalAnd` for two pipes
and `BitwiseAnd` for a lone pipe, contradicting its own `SYMBOLS`
table; the `&` states behave as specified. -/
theorem C4_pipe_lexed_as_and_tokens :
    nextToken (chs ("|| ")) 0 = (LexOut.tok Token.LogicalAnd, 2) ∧
    nextToken (chs ("|x")) 0 = (LexOut.tok Token.BitwiseAnd, 1) ∧
    nextToken (chs ("&& ")) 0 = (LexOut.tok Token.LogicalAnd, 2) ∧
    nextToken (chs ("&x")) 0 = (LexOut.tok Token.BitwiseAnd, 1) :=
  ⟨rfl, rfl, rfl, rfl⟩

/-- Claim C5 counterexample: scope resolution accepts a body whose
while-loop condition is an identifier resolving to nothing — condition
expressions are never visited, contradicting the claim that every
`Identifier` leaf (including those in conditions) is checked. -/
theorem C5_while_condition_unresolved_accepted :
    checkSemanticsHelper 50 [] [] bodyWhileUnresolvedCond =
    Except.ok ([], []) := rfl

/-- Claim C5 as amended: scope resolution never reads the condition
child of a `WhileLoop` or `IfStmt` (the result is unchanged under any
replacement of the condition), and an `Identifier` leaf outside those
positions is rejected with code 6 exactly when no `Variable` or
`Const` marker for it is on the stack. -/
theorem C5_condition_skipped_identifier_checked :
    (∀ (fuel : Nat) (stack : List ScopeElem) (varSet : List (Str × Str))
      (c c' b : AbstractSyntaxTree),
      checkSemanticsHelper (fuel + 1) stack varSet
        (.mk .WhileLoop [c, b]) =
      checkSemanticsHelper (fuel + 1) stack varSet
        (.mk .WhileLoop [c', b])) ∧
    (∀ (fuel : Nat) (stack : List ScopeElem) (varSet : List (Str × Str))
      (c c' t e : AbstractSyntaxTree),
      checkSemanticsHelper (fuel + 1) stack varSet
        (.mk .IfStmt [c, t, e]) =
      checkSemanticsHelper (fuel + 1) stack varSet
        (.mk .IfStmt [c', t, e])) ∧
    (∀ (fuel : Nat) (stack : List ScopeElem) (varSet : List (Str × Str))
      (id : Str),
      stack.any (fun e =>
        e = ScopeElem.Variable id ∨ e = ScopeElem.Const id) = false →
      checkSemanticsHelper (fuel + 1) stack varSet
        (.mk (.Identifier id) []) = Except.error (SemErr.rust 6)) ∧
    (∀ (fuel : Nat) (stack : List ScopeElem) (varSet : List (Str × Str))
      (id : Str),
      stack.any (fun e =>
        e = ScopeElem.Variable id ∨ e = ScopeElem.Const id) = true →
      checkSemanticsHelper (fuel + 1) stack varSet
        (.mk (.Identifier id) []) = Except.ok (stack, varSet)) := by
  refine ⟨fun fuel stack varSet c c' b => rfl,
          fun fuel stack varSet c c' t e => rfl, ?_, ?_⟩
  · intro fuel stack varSet id h
    have e1 : checkSemanticsHelper (fuel + 1) stack varSet
        (.mk (.Identifier id) []) =
        (if stack.any (fun e =>
            e = ScopeElem.Variable id ∨ e = ScopeElem.Const id)
         then Except.ok (stack, varSet)
         else Except.error (SemErr.rust 6)) := rfl
    rw [e1, h]
    rfl
  · intro fuel stack varSet id h
    have e1 : checkSemanticsHelper (fuel + 1) stack varSet
        (.mk (.Identifier id) []) =
        (if stack.any (fun e =>
            e = ScopeElem.Variable id ∨ e = ScopeElem.Const id)
         then Except.ok (stack, varSet)
         else Except.error (SemErr.rust 6)) := rfl
    rw [e1, h]
    rfl

/-- Witness for the hypotheses of the amended claim C5: with only a
`Func` marker on the stack, the identifier `q` is rejected with code 6;
with a `Variable q` marker it is accepted. -/
theorem C5_condition_skipped_identifier_checked_witness :
    (([ScopeElem.Func (chs ("main"))] : List ScopeElem).any (fun e =>
      e = ScopeElem.Variable (chs ("q")) ∨
      e = ScopeElem.Const (chs ("q"))) = false) ∧
    checkSemanticsHelper 1 [ScopeElem.Func (chs ("main"))] []
      (.mk (.Identifier (chs ("q"))) []) =
      Except.error (SemErr.rust 6) ∧
    (([ScopeElem.Variable (chs ("q"))] : List ScopeElem).any (fun e =>
      e = ScopeElem.Variable (chs ("q")) ∨
      e = ScopeElem.Const (chs ("q"))) = true) ∧
    checkSemanticsHelper 1 [ScopeElem.Variable (chs ("q"))] []
      (.mk (.Identifier (chs ("q"))) []) =
      Except.ok ([ScopeElem.Variable (chs ("q"))], []) :=
  ⟨by decide,
   C5_condition_skipped_identifier_checked.2.2.1 0
     [ScopeElem.Func (chs ("main"))] [] (chs ("q")) (by decide),
   by decide,
   C5_condition_skipped_identifier_checked.2.2.2 0
     [ScopeElem.Variable (chs ("q"))] [] (chs ("q")) (by decide)⟩

/-- Claim C6 counterexample: two parameters with the same name but
different declared types are accepted by `sst_func` (the duplicate
check compares whole `(name, type)` pairs), so seeding does not fail
as the claim states. -/
theorem C6_dup_name_distinct_types_accepted :
    sstFunc 9 (paramTwo (chs ("x")) (chs ("int"))
      (chs ("x")) (chs ("float"))) =
    Except.ok [(chs ("x"), chs ("float")), (chs ("x"), chs ("int"))] :=
  rfl

/-- Claim C6 as amended: for a two-parameter list with a repeated
parameter name, `sst_func` fails with error 3 exactly when the declared
types are also equal; with distinct types it succeeds (returning the
parameters in reverse source order). -/
theorem C6_dup_param_rejected_iff_same_type :
    ∀ (fuel : Nat) (n t1 t2 : Str),
    sstFunc (fuel + 3) (paramTwo n t1 n t2) =
    (if t1 = t2 then Except.error (SemErr.rust 3)
     else Except.ok [(n, t2), (n, t1)]) := by
  intro fuel n t1 t2
  have e1 : sstFunc (fuel + 3) (paramTwo n t1 n t2) =
      sstFuncMerge [(n, t1)] [(n, t2)] := rfl
  have e2 : sstFuncMerge [(n, t1)] [(n, t2)] =
      (if [(n, t2)].any (fun q => q = (n, t1)) then
        Except.error (SemErr.rust 3)
       else Except.ok [(n, t2), (n, t1)]) := rfl
  rw [e1, e2]
  by_cases h : t1 = t2
  · subst h
    simp
  · simp [h]
    intro hc
    exact absurd hc.symm h

/-- Claim C7: a `DeclareVar` (resp. `DeclareConst`) whose name already
has a `Variable` or `Const` marker on the scope stack after checking
its initializer is rejected with the duplicate-local error 5 (resp. 4);
in particular the body of spec scenario S3,
`var x:int = 1; var x:int = 2;`, is rejected with error 5. -/
theorem C7_duplicate_local_rejected :
    (∀ (fuel : Nat) (stack : List ScopeElem) (varSet : List (Str × Str))
      (name : Str) (tNode init : AbstractSyntaxTree)
      (stack' : List ScopeElem) (varSet' : List (Str × Str)),
      checkSemanticsHelper fuel stack varSet init =
        Except.ok (stack', varSet') →
      (ScopeElem.Variable name ∈ stack' ∨
        ScopeElem.Const name ∈ stack') →
      checkSemanticsHelper (fuel + 1) stack varSet
        (.mk .DeclareVar [.mk (.Identifier name) [], tNode, init]) =
        Except.error (SemErr.rust 5) ∧
      checkSemanticsHelper (fuel + 1) stack varSet
        (.mk .DeclareConst [.mk (.Identifier name) [], tNode, init]) =
        Except.error (SemErr.rust 4)) ∧
    checkSemanticsHelper 50 [ScopeElem.Func (chs ("main"))] [] bodyS3 =
      Except.error (SemErr.rust 5) := by
  constructor
  · intro fuel stack varSet name tNode init stack' varSet' h1 h2
    have hbV : (stack'.any (fun e =>
        e = ScopeElem.Variable name ∨ e = ScopeElem.Const name)) =
        true := by
      simp only [List.any_eq_true, decide_eq_true_eq]
      rcases h2 with h | h
      · exact ⟨_, h, Or.inl rfl⟩
      · exact ⟨_, h, Or.inr rfl⟩
    have hbC : (stack'.any (fun e =>
        e = ScopeElem.Const name ∨ e = ScopeElem.Variable name)) =
        true := by
      simp only [List.any_eq_true, decide_eq_true_eq]
      rcases h2 with h | h
      · exact ⟨_, h, Or.inr rfl⟩
      · exact ⟨_, h, Or.inl rfl⟩
    constructor
    · have eV : checkSemanticsHelper (fuel + 1) stack varSet
          (.mk .DeclareVar [.mk (.Identifier name) [], tNode, init]) =
          (checkSemanticsHelper fuel stack varSet init) >>= (fun st =>
            if st.fst.any (fun e =>
                e = ScopeElem.Variable name ∨ e = ScopeElem.Const name)
            then Except.error (SemErr.rust 5)
            else Except.ok (st.fst ++ [ScopeElem.Variable name],
              varSetInsert (name,
                match tNode.node with
                | .Identifier i => i
                | _ => []) st.snd)) := rfl
      rw [eV, h1]
      show (if stack'.any (fun e =>
          e = ScopeElem.Variable name ∨ e = ScopeElem.Const name)
        then Except.error (SemErr.rust 5) else _) = _
      rw [hbV]
      rfl
    · have eC : checkSemanticsHelper (fuel + 1) stack varSet
          (.mk .DeclareConst [.mk (.Identifier name) [], tNode, init]) =
          (checkSemanticsHelper fuel stack varSet init) >>= (fun st =>
            if st.fst.any (fun e =>
                e = ScopeElem.Const name ∨ e = ScopeElem.Variable name)
            then Except.error (SemErr.rust 4)
            else Except.ok (st.fst ++ [ScopeElem.Const name],
              varSetInsert (name,
                match tNode.node with
                | .Identifier i => i
                | _ => []) st.snd)) := rfl
      rw [eC, h1]
      show (if stack'.any (fun e =>
          e = ScopeElem.Const name ∨ e = ScopeElem.Variable name)
        then Except.error (SemErr.rust 4) else _) = _
      rw [hbC]
      rfl
  · decide

/-- Witness for the hypotheses of claim C7: with `Variable x` on the
stack and initializer `1`, both a re-declaring `var x` and a
re-declaring `const x` are rejected. -/
theorem C7_duplicate_local_rejected_witness :
    checkSemanticsHelper 2 [ScopeElem.Variable (chs ("x"))] []
      (.mk (.Integer 1) []) =
      Except.ok ([ScopeElem.Variable (chs ("x"))], []) ∧
    (ScopeElem.Variable (chs ("x")) ∈
        ([ScopeElem.Variable (chs ("x"))] : List ScopeElem) ∨
      ScopeElem.Const (chs ("x")) ∈
        ([ScopeElem.Variable (chs ("x"))] : List ScopeElem)) ∧
    checkSemanticsHelper 3 [ScopeElem.Variable (chs ("x"))] []
      (.mk .DeclareVar [.mk (.Identifier (chs ("x"))) [],
        .mk (.Identifier (chs ("int"))) [], .mk (.Integer 1) []]) =
      Except.error (SemErr.rust 5) ∧
    checkSemanticsHelper 3 [ScopeElem.Variable (chs ("x"))] []
      (.mk .DeclareConst [.mk (.Identifier (chs ("x"))) [],
        .mk (.Identifier (chs ("int"))) [], .mk (.Integer 1) []]) =
      Except.error (SemErr.rust 4) :=
  ⟨by decide, by decide,
   (C7_duplicate_local_rejected.1 2 [ScopeElem.Variable (chs ("x"))]
     [] (chs ("x")) (.mk (.Identifier (chs ("int"))) [])
     (.mk (.Integer 1) []) [ScopeElem.Variable (chs ("x"))] []
     (by decide) (by decide)).1,
   (C7_duplicate_local_rejected.1 2 [ScopeElem.Variable (chs ("x"))]
     [] (chs ("x")) (.mk (.Identifier (chs ("int"))) [])
     (.mk (.Integer 1) []) [ScopeElem.Variable (chs ("x"))] []
     (by decide) (by decide)).2⟩

/-! ### Buffer-layout lemmas for claim C8

The bytecode emitters thread a byte buffer that they extend by
appending and patch only inside the freshly appended region; the
following lemmas make that invariant explicit so that the stub
placement can be proved for every node. -/

/-- Splitting a successful `Except.bind` into its two stages. -/
theorem okOfBind {α β : Type} {x : Except CgErr α} {f : α → Except CgErr β}
    {b : β} (h : x.bind f = Except.ok b) :
    ∃ a, x = Except.ok a ∧ f a = Except.ok b := by
  cases x with
  | error e => exact absurd h (fun hh => Except.noConfusion hh)
  | ok a => exact ⟨a, rfl, h⟩

/-- `List.set` at an index at or past the end of a prefix keeps that
prefix. -/
theorem preOfSet (x : Nat) :
    ∀ (pre b : List Nat) (loc : Nat),
      pre <+: b → pre.length ≤ loc → pre <+: b.set loc x := by
  intro pre
  induction pre with
  | nil => intro b loc _ _; exact ⟨b.set loc x, rfl⟩
  | cons a as ih =>
    intro b loc h hl
    obtain ⟨t, rfl⟩ := h
    cases loc with
    | zero => exact absurd hl (Nat.not_succ_le_zero _)
    | succ n =>
      obtain ⟨u, hu⟩ := ih (as ++ t) n ⟨t, rfl⟩ (Nat.le_of_succ_le_succ hl)
      exact ⟨u, by
        show a :: (as ++ u) = a :: (as ++ t).set n x
        rw [hu]⟩

/-- Back-patching never changes the buffer's length. -/
theorem lengthWrite : ∀ (p b : List Nat) (loc : Nat),
    (writeBytesAt b loc p).length = b.length := by
  intro p
  induction p with
  | nil => intro b loc; rfl
  | cons x xs ih =>
    intro b loc
    show (writeBytesAt (b.set loc x) (loc + 1) xs).length = b.length
    rw [ih (b.set loc x) (loc + 1), List.length_set]

/-- Back-patching at a location at or past the end of a prefix keeps
that prefix (every jump/return patch of the emitters lands inside the
freshly emitted region, past the bytes that were already present). -/
theorem preOfWrite :
    ∀ (p pre b : List Nat) (loc : Nat),
      pre <+: b → pre.length ≤ loc → pre <+: writeBytesAt b loc p := by
  intro p
  induction p with
  | nil => intro pre b loc h _; exact h
  | cons x xs ih =>
    intro pre b loc h hl
    show pre <+: writeBytesAt (b.set loc x) (loc + 1) xs
    exact ih pre (b.set loc x) (loc + 1) (preOfSet x pre b loc h hl)
      (Nat.le_succ_of_le hl)

set_option maxHeartbeats 1000000 in
/-- Every emitter of the bytecode-generation mutual block only appends
to (and back-patches within) the freshly emitted region: on success the
input buffer is a prefix of the output buffer. -/
theorem cgBytesExtend : ∀ fuel : Nat,
    (∀ fns vs va b c t st, generateFunctionBytecode fuel fns vs va b c t =
      Except.ok st → b <+: st.fst) ∧
    (∀ fns vs va b c l st,
      generateFunctionBytecodeList fuel fns vs va b c l =
      Except.ok st → b <+: st.fst) ∧
    (∀ fns vs va b c t st, generateExprBytecode fuel fns vs va b c t =
      Except.ok st → b <+: st.fst) ∧
    (∀ fns vs va b c l st, generateExprBytecodeList fuel fns vs va b c l =
      Except.ok st → b <+: st.fst) ∧
    (∀ fns vs va b c t st, generateInputsBytecode fuel fns vs va b c t =
      Except.ok st → b <+: st.fst) ∧
    (∀ fns vs va b c l st,
      generateInputsBytecodeList fuel fns vs va b c l =
      Except.ok st → b <+: st.fst) ∧
    (∀ fns vs va b c t i st, generateArrBytecode fuel fns vs va b c t i =
      Except.ok st → b <+: st.fst) ∧
    (∀ fns vs va b c t ty st,
      generateIndexBytecode fuel fns vs va b c t ty =
      Except.ok st → b <+: st.fst) := by
  intro fuel
  induction fuel with
  | zero =>
    exact ⟨fun _ _ _ _ _ _ _ h => absurd h (fun hh => Except.noConfusion hh),
      fun _ _ _ _ _ _ _ h => absurd h (fun hh => Except.noConfusion hh),
      fun _ _ _ _ _ _ _ h => absurd h (fun hh => Except.noConfusion hh),
      fun _ _ _ _ _ _ _ h => absurd h (fun hh => Except.noConfusion hh),
      fun _ _ _ _ _ _ _ h => absurd h (fun hh => Except.noConfusion hh),
      fun _ _ _ _ _ _ _ h => absurd h (fun hh => Except.noConfusion hh),
      fun _ _ _ _ _ _ _ _ h => absurd h (fun hh => Except.noConfusion hh),
      fun _ _ _ _ _ _ _ _ h => absurd h (fun hh => Except.noConfusion hh)⟩
  | succ n ih =>
    obtain ⟨ihF, ihFL, ihE, ihEL, ihI, ihIL, ihA, ihX⟩ := ih
    refine ⟨?_, ?_, ?_, ?_, ?_, ?_, ?_, ?_⟩
    · -- generateFunctionBytecode
      intro fns vs va b c t st h
      obtain ⟨nd, ch⟩ := t
      cases nd <;> try exact ihFL fns vs va b c ch st h
      case DeclareVar =>
        cases ch with
        | nil => exact absurd h (fun hh => Except.noConfusion hh)
        | cons c0 ch1 =>
          cases ch1 with
          | nil => exact absurd h (fun hh => Except.noConfusion hh)
          | cons c1 ch2 =>
            cases ch2 with
            | nil => exact absurd h (fun hh => Except.noConfusion hh)
            | cons c2 ch3 =>
              obtain ⟨s1, h1, h2⟩ := okOfBind h
              have hb : b <+: s1.fst := ihE fns vs va b c c2 s1 h1
              try simp only [] at h2
              split at h2
              · exact absurd h2 (fun hh => Except.noConfusion hh)
              · split at h2
                · cases Except.ok.inj h2
                  exact hb.trans ⟨_, (List.append_assoc _ _ _).symm⟩
                · split at h2
                  · cases Except.ok.inj h2
                    exact hb.trans ⟨_, (List.append_assoc _ _ _).symm⟩
                  · split at h2
                    · cases Except.ok.inj h2
                      exact hb.trans ⟨_, (List.append_assoc _ _ _).symm⟩
                    · split at h2
                      · cases Except.ok.inj h2
                        exact hb.trans ⟨_, (List.append_assoc _ _ _).symm⟩
                      · split at h2
                        · exact absurd h2 (fun hh => Except.noConfusion hh)
                        · split at h2
                          · obtain ⟨ls, h3, h4⟩ := okOfBind h2
                            cases Except.ok.inj h4
                            exact hb.trans (List.prefix_append _ _)
                          · cases Except.ok.inj h2
                            exact hb.trans ⟨_, (List.append_assoc _ _ _).symm⟩
      case DeclareConst =>
        cases ch with
        | nil => exact absurd h (fun hh => Except.noConfusion hh)
        | cons c0 ch1 =>
          cases ch1 with
          | nil => exact absurd h (fun hh => Except.noConfusion hh)
          | cons c1 ch2 =>
            cases ch2 with
            | nil => exact absurd h (fun hh => Except.noConfusion hh)
            | cons c2 ch3 =>
              obtain ⟨s1, h1, h2⟩ := okOfBind h
              have hb : b <+: s1.fst := ihE fns vs va b c c2 s1 h1
              try simp only [] at h2
              split at h2
              · exact absurd h2 (fun hh => Except.noConfusion hh)
              · split at h2
                · cases Except.ok.inj h2
                  exact hb.trans ⟨_, (List.append_assoc _ _ _).symm⟩
                · split at h2
                  · cases Except.ok.inj h2
                    exact hb.trans ⟨_, (List.append_assoc _ _ _).symm⟩
                  · split at h2
                    · cases Except.ok.inj h2
                      exact hb.trans ⟨_, (List.append_assoc _ _ _).symm⟩
                    · split at h2
                      · cases Except.ok.inj h2
                        exact hb.trans ⟨_, (List.append_assoc _ _ _).symm⟩
                      · split at h2
                        · exact absurd h2 (fun hh => Except.noConfusion hh)
                        · split at h2
                          · obtain ⟨ls, h3, h4⟩ := okOfBind h2
                            cases Except.ok.inj h4
                            exact hb.trans (List.prefix_append _ _)
                          · cases Except.ok.inj h2
                            exact hb.trans ⟨_, (List.append_assoc _ _ _).symm⟩
      case Assign =>
        cases ch with
        | nil => exact absurd h (fun hh => Except.noConfusion hh)
        | cons c0 ch1 =>
          cases ch1 with
          | nil => exact absurd h (fun hh => Except.noConfusion hh)
          | cons c1 ch2 =>
            cases ch2 with
            | nil => exact absurd h (fun hh => Except.noConfusion hh)
            | cons c2 ch3 =>
              obtain ⟨s1, h1, h2⟩ := okOfBind h
              have hb : b <+: s1.fst := ihE _ _ _ _ _ _ _ h1
              try simp only [] at h2
              split at h2
              · exact absurd h2 (fun hh => Except.noConfusion hh)
              · split at h2
                · obtain ⟨s2, h3, h4⟩ := okOfBind h2
                  have hb2 : b <+: s2.fst :=
                    hb.trans (ihX _ _ _ _ _ _ _ _ h3)
                  try simp only [] at h4
                  repeat' split at h4
                  all_goals
                    first
                    | exact absurd h4 (fun hh => Except.noConfusion hh)
                    | (cases Except.ok.inj h4
                       exact hb2.trans ⟨_, (List.append_assoc _ _ _).symm⟩)
                    | (obtain ⟨sv, h7, h8⟩ := okOfBind h4
                       cases Except.ok.inj h8
                       exact hb2.trans ⟨_, (List.append_assoc _ _ _).symm⟩)
                · obtain ⟨s2, h3, h4⟩ := okOfBind h2
                  have hb2 : b <+: s2.fst := by
                    cases Except.ok.inj h3
                    exact hb
                  try simp only [] at h4
                  repeat' split at h4
                  all_goals
                    first
                    | exact absurd h4 (fun hh => Except.noConfusion hh)
                    | (cases Except.ok.inj h4
                       exact hb2.trans ⟨_, (List.append_assoc _ _ _).symm⟩)
                    | (obtain ⟨sv, h7, h8⟩ := okOfBind h4
                       cases Except.ok.inj h8
                       exact hb2.trans ⟨_, (List.append_assoc _ _ _).symm⟩)
      case FnCall =>
        cases ch with
        | nil => exact absurd h (fun hh => Except.noConfusion hh)
        | cons c0 ch1 =>
          cases ch1 with
          | nil => exact absurd h (fun hh => Except.noConfusion hh)
          | cons c1 ch2 =>
            obtain ⟨s1, h1, h2⟩ := okOfBind h
            have hb : (b ++ [0x10, 0x0, 0x0, 0x0, 0x0]) <+: s1.fst :=
              ihI _ _ _ _ _ _ _ h1
            cases Except.ok.inj h2
            exact preOfWrite _ _ _ _
              ((List.prefix_append _ _).trans (hb.trans
                (List.prefix_append _ _)))
              (by
                show b.length ≤ (b ++ [0x10, 0x0, 0x0, 0x0, 0x0]).length - 4
                simp only [List.length_append, List.length_cons,
                  List.length_nil]
                omega)
      case WhileLoop =>
        cases ch with
        | nil => exact absurd h (fun hh => Except.noConfusion hh)
        | cons c0 ch1 =>
          cases ch1 with
          | nil => exact absurd h (fun hh => Except.noConfusion hh)
          | cons c1 ch2 =>
            obtain ⟨s1, h1, h2⟩ := okOfBind h
            have hb1 : b <+: s1.fst := ihE _ _ _ _ _ _ _ h1
            try simp only [] at h2
            obtain ⟨s2, h3, h4⟩ := okOfBind h2
            have hb2 : (s1.fst ++ [0x51, 0x0, 0x0, 0x0, 0x0]) <+: s2.fst :=
              ihF _ _ _ _ _ _ _ h3
            cases Except.ok.inj h4
            refine preOfWrite _ _ _ _
              (hb1.trans ((List.prefix_append _ _).trans (hb2.trans
                ⟨_, (List.append_assoc _ _ _).symm⟩))) ?_
            have hl1 : b.length ≤ s1.fst.length := hb1.length_le
            show b.length ≤ (s1.fst ++ [0x51, 0x0, 0x0, 0x0, 0x0]).length - 4
            simp only [List.length_append, List.length_cons, List.length_nil]
            omega
      case IfStmt =>
        cases ch with
        | nil => exact absurd h (fun hh => Except.noConfusion hh)
        | cons c0 ch1 =>
          cases ch1 with
          | nil => exact absurd h (fun hh => Except.noConfusion hh)
          | cons c1 ch2 =>
            cases ch2 with
            | nil => exact absurd h (fun hh => Except.noConfusion hh)
            | cons c2 ch3 =>
              obtain ⟨s1, h1, h2⟩ := okOfBind h
              have hb1 : b <+: s1.fst := ihE _ _ _ _ _ _ _ h1
              try simp only [] at h2
              obtain ⟨s2, h3, h4⟩ := okOfBind h2
              have hb2 : (s1.fst ++ [0x51, 0x0, 0x0, 0x0, 0x0]) <+: s2.fst :=
                ihF _ _ _ _ _ _ _ h3
              try simp only [] at h4
              obtain ⟨s3, h5, h6⟩ := okOfBind h4
              have hb3 := ihF _ _ _ _ _ _ _ h5
              cases Except.ok.inj h6
              have hl1 : b.length ≤ s1.fst.length := hb1.length_le
              have hbw : b <+:
                  writeBytesAt (s2.fst ++ [0x5A, 0x0, 0x0, 0x0, 0x0])
                    ((s1.fst ++ [0x51, 0x0, 0x0, 0x0, 0x0]).length - 4)
                    (u32be (s2.fst ++ [0x5A, 0x0, 0x0, 0x0, 0x0]).length) :=
                preOfWrite _ _ _ _
                  (hb1.trans ((List.prefix_append _ _).trans (hb2.trans
                    (List.prefix_append _ _))))
                  (by
                    simp only [List.length_append, List.length_cons,
                      List.length_nil]
                    omega)
              refine preOfWrite _ _ _ _ (hbw.trans hb3) ?_
              have hl2 : (s1.fst ++ [0x51, 0x0, 0x0, 0x0, 0x0]).length ≤
                  s2.fst.length := hb2.length_le
              rw [lengthWrite]
              simp only [List.length_append, List.length_cons,
                List.length_nil] at hl2 ⊢
              omega
      case ReturnValue =>
        cases ch with
        | nil => exact absurd h (fun hh => Except.noConfusion hh)
        | cons c0 ch1 =>
          obtain ⟨s1, h1, h2⟩ := okOfBind h
          cases Except.ok.inj h2
          exact (ihE _ _ _ _ _ _ _ h1).trans (List.prefix_append _ _)
    · -- generateFunctionBytecodeList
      intro fns vs va b c l st h
      cases l with
      | nil =>
        cases Except.ok.inj h
        exact List.prefix_rfl
      | cons c0 rest =>
        obtain ⟨s1, h1, h2⟩ := okOfBind h
        exact (ihF _ _ _ _ _ _ _ h1).trans (ihFL _ _ _ _ _ _ _ h2)
    · -- generateExprBytecode
      intro fns vs va b c t st h
      obtain ⟨nd, ch⟩ := t
      cases nd <;> try exact ihEL fns vs va b c ch st h
      case AndOp =>
        cases ch with
        | nil => exact absurd h (fun hh => Except.noConfusion hh)
        | cons c0 ch1 =>
          cases ch1 with
          | nil => exact absurd h (fun hh => Except.noConfusion hh)
          | cons c1 ch2 =>
            obtain ⟨s1, ha, h2⟩ := okOfBind h
            obtain ⟨s0, hb', h3⟩ := okOfBind h2
            have hpre : b <+: s0.fst :=
              (ihE _ _ _ _ _ _ _ ha).trans (ihE _ _ _ _ _ _ _ hb')
            cases Except.ok.inj h3
            exact hpre.trans (List.prefix_append _ _)
      case OrOp =>
        cases ch with
        | nil => exact absurd h (fun hh => Except.noConfusion hh)
        | cons c0 ch1 =>
          cases ch1 with
          | nil => exact absurd h (fun hh => Except.noConfusion hh)
          | cons c1 ch2 =>
            obtain ⟨s1, ha, h2⟩ := okOfBind h
            obtain ⟨s0, hb', h3⟩ := okOfBind h2
            have hpre : b <+: s0.fst :=
              (ihE _ _ _ _ _ _ _ ha).trans (ihE _ _ _ _ _ _ _ hb')
            cases Except.ok.inj h3
            exact hpre.trans (List.prefix_append _ _)
      case CompEq =>
        cases ch with
        | nil => exact absurd h (fun hh => Except.noConfusion hh)
        | cons c0 ch1 =>
          cases ch1 with
          | nil => exact absurd h (fun hh => Except.noConfusion hh)
          | cons c1 ch2 =>
            obtain ⟨s1, ha, h2⟩ := okOfBind h
            obtain ⟨s0, hb', h3⟩ := okOfBind h2
            have hpre : b <+: s0.fst :=
              (ihE _ _ _ _ _ _ _ ha).trans (ihE _ _ _ _ _ _ _ hb')
            obtain ⟨ty, hty, h4⟩ := okOfBind h3
            cases Except.ok.inj h4
            exact hpre.trans (List.prefix_append _ _)
      case CompNeq =>
        cases ch with
        | nil => exact absurd h (fun hh => Except.noConfusion hh)
        | cons c0 ch1 =>
          cases ch1 with
          | nil => exact absurd h (fun hh => Except.noConfusion hh)
          | cons c1 ch2 =>
            obtain ⟨s1, ha, h2⟩ := okOfBind h
            obtain ⟨s0, hb', h3⟩ := okOfBind h2
            have hpre : b <+: s0.fst :=
              (ihE _ _ _ _ _ _ _ ha).trans (ihE _ _ _ _ _ _ _ hb')
            obtain ⟨ty, hty, h4⟩ := okOfBind h3
            cases Except.ok.inj h4
            exact hpre.trans (List.prefix_append _ _)
      case CompLess =>
        cases ch with
        | nil => exact absurd h (fun hh => Except.noConfusion hh)
        | cons c0 ch1 =>
          cases ch1 with
          | nil => exact absurd h (fun hh => Except.noConfusion hh)
          | cons c1 ch2 =>
            obtain ⟨s1, ha, h2⟩ := okOfBind h
            obtain ⟨s0, hb', h3⟩ := okOfBind h2
            have hpre : b <+: s0.fst :=
              (ihE _ _ _ _ _ _ _ ha).trans (ihE _ _ _ _ _ _ _ hb')
            obtain ⟨ty, hty, h4⟩ := okOfBind h3
            cases Except.ok.inj h4
            exact hpre.trans (List.prefix_append _ _)
      case CompGreater =>
        cases ch with
        | nil => exact absurd h (fun hh => Except.noConfusion hh)
        | cons c0 ch1 =>
          cases ch1 with
          | nil => exact absurd h (fun hh => Except.noConfusion hh)
          | cons c1 ch2 =>
            obtain ⟨s1, ha, h2⟩ := okOfBind h
            obtain ⟨s0, hb', h3⟩ := okOfBind h2
            have hpre : b <+: s0.fst :=
              (ihE _ _ _ _ _ _ _ ha).trans (ihE _ _ _ _ _ _ _ hb')
            obtain ⟨ty, hty, h4⟩ := okOfBind h3
            cases Except.ok.inj h4
            exact hpre.trans (List.prefix_append _ _)
      case CompLeq =>
        cases ch with
        | nil => exact absurd h (fun hh => Except.noConfusion hh)
        | cons c0 ch1 =>
          cases ch1 with
          | nil => exact absurd h (fun hh => Except.noConfusion hh)
          | cons c1 ch2 =>
            obtain ⟨s1, ha, h2⟩ := okOfBind h
            obtain ⟨s0, hb', h3⟩ := okOfBind h2
            have hpre : b <+: s0.fst :=
              (ihE _ _ _ _ _ _ _ ha).trans (ihE _ _ _ _ _ _ _ hb')
            obtain ⟨ty, hty, h4⟩ := okOfBind h3
            cases Except.ok.inj h4
            exact hpre.trans (List.prefix_append _ _)
      case CompGeq =>
        cases ch with
        | nil => exact absurd h (fun hh => Except.noConfusion hh)
        | cons c0 ch1 =>
          cases ch1 with
          | nil => exact absurd h (fun hh => Except.noConfusion hh)
          | cons c1 ch2 =>
            obtain ⟨s1, ha, h2⟩ := okOfBind h
            obtain ⟨s0, hb', h3⟩ := okOfBind h2
            have hpre : b <+: s0.fst :=
              (ihE _ _ _ _ _ _ _ ha).trans (ihE _ _ _ _ _ _ _ hb')
            obtain ⟨ty, hty, h4⟩ := okOfBind h3
            cases Except.ok.inj h4
            exact hpre.trans (List.prefix_append _ _)
      case AddOp =>
        cases ch with
        | nil => exact absurd h (fun hh => Except.noConfusion hh)
        | cons c0 ch1 =>
          cases ch1 with
          | nil => exact absurd h (fun hh => Except.noConfusion hh)
          | cons c1 ch2 =>
            obtain ⟨s1, ha, h2⟩ := okOfBind h
            obtain ⟨s0, hb', h3⟩ := okOfBind h2
            have hpre : b <+: s0.fst :=
              (ihE _ _ _ _ _ _ _ ha).trans (ihE _ _ _ _ _ _ _ hb')
            obtain ⟨ty, hty, h4⟩ := okOfBind h3
            cases Except.ok.inj h4
            exact hpre.trans (List.prefix_append _ _)
      case SubOp =>
        cases ch with
        | nil => exact absurd h (fun hh => Except.noConfusion hh)
        | cons c0 ch1 =>
          cases ch1 with
          | nil => exact absurd h (fun hh => Except.noConfusion hh)
          | cons c1 ch2 =>
            obtain ⟨s1, ha, h2⟩ := okOfBind h
            obtain ⟨s0, hb', h3⟩ := okOfBind h2
            have hpre : b <+: s0.fst :=
              (ihE _ _ _ _ _ _ _ ha).trans (ihE _ _ _ _ _ _ _ hb')
            obtain ⟨ty, hty, h4⟩ := okOfBind h3
            cases Except.ok.inj h4
            exact hpre.trans (List.prefix_append _ _)
      case MulOp =>
        cases ch with
        | nil => exact absurd h (fun hh => Except.noConfusion hh)
        | cons c0 ch1 =>
          cases ch1 with
          | nil => exact absurd h (fun hh => Except.noConfusion hh)
          | cons c1 ch2 =>
            obtain ⟨s1, ha, h2⟩ := okOfBind h
            obtain ⟨s0, hb', h3⟩ := okOfBind h2
            have hpre : b <+: s0.fst :=
              (ihE _ _ _ _ _ _ _ ha).trans (ihE _ _ _ _ _ _ _ hb')
            obtain ⟨ty, hty, h4⟩ := okOfBind h3
            cases Except.ok.inj h4
            exact hpre.trans (List.prefix_append _ _)
      case DivOp =>
        cases ch with
        | nil => exact absurd h (fun hh => Except.noConfusion hh)
        | cons c0 ch1 =>
          cases ch1 with
          | nil => exact absurd h (fun hh => Except.noConfusion hh)
          | cons c1 ch2 =>
            obtain ⟨s1, ha, h2⟩ := okOfBind h
            obtain ⟨s0, hb', h3⟩ := okOfBind h2
            have hpre : b <+: s0.fst :=
              (ihE _ _ _ _ _ _ _ ha).trans (ihE _ _ _ _ _ _ _ hb')
            obtain ⟨ty, hty, h4⟩ := okOfBind h3
            cases Except.ok.inj h4
            exact hpre.trans (List.prefix_append _ _)
      case InputList =>
        obtain ⟨s0, h0, h2⟩ := okOfBind h
        exact ihA _ _ _ _ _ _ _ _ h2
      case FnCall =>
        cases ch with
        | nil => exact absurd h (fun hh => Except.noConfusion hh)
        | cons c0 ch1 =>
          cases ch1 with
          | nil => exact absurd h (fun hh => Except.noConfusion hh)
          | cons c1 ch2 =>
            obtain ⟨s2, h3, h4⟩ := okOfBind h
            have hb : (b ++ [0x10, 0x0, 0x0, 0x0, 0x0]) <+: s2.fst :=
              ihI _ _ _ _ _ _ _ h3
            cases Except.ok.inj h4
            exact preOfWrite _ _ _ _
              ((List.prefix_append _ _).trans (hb.trans
                (List.prefix_append _ _)))
              (by
                show b.length ≤ (b ++ [0x10, 0x0, 0x0, 0x0, 0x0]).length - 4
                simp only [List.length_append, List.length_cons,
                  List.length_nil]
                omega)
      case Integer i =>
        cases Except.ok.inj h
        exact List.prefix_append _ _
      case Float tx =>
        cases Except.ok.inj h
        exact List.prefix_append _ _
      case True =>
        cases Except.ok.inj h
        exact List.prefix_append _ _
      case False =>
        cases Except.ok.inj h
        exact List.prefix_append _ _
      case Character cc =>
        cases Except.ok.inj h
        exact List.prefix_append _ _
      case Identifier nm =>
        cases ch with
        | nil =>
          have h' : (match assocFind nm va with
            | none => Except.error CgErr.panicked
            | some ta => do
              let st2 ← Except.ok ((b, c) : List Nat × List (Nat × Str))
              let opcode ←
                if ta.fst = chs ("int") then Except.ok 0x22
                else if ta.fst = chs ("float") then Except.ok 0x23
                else if ta.fst = chs ("bool") then Except.ok 0x29
                else if ta.fst = chs ("char") then Except.ok 0x2D
                else
                  match ta.fst with
                  | [] => Except.error CgErr.panicked
                  | c' :: _ =>
                    if c' = '[' then do
                      let s ← stripArrLoop n ta.fst
                      Except.ok (if s = chs ("int") then 0x82
                        else if s = chs ("float") then 0x83
                        else if s = chs ("bool") then 0x84
                        else if s = chs ("char") then 0x85
                        else 0x0)
                    else Except.ok 0x0
              Except.ok (st2.fst ++ [opcode] ++ u32be ta.snd, st2.snd)) =
            Except.ok st := h
          split at h'
          · exact absurd h' (fun hh => Except.noConfusion hh)
          · obtain ⟨s2, h3, h4⟩ := okOfBind h'
            have hb2 : b <+: s2.fst := by
              cases Except.ok.inj h3
              exact List.prefix_rfl
            try simp only [] at h4
            repeat' split at h4
            all_goals
              first
              | exact absurd h4 (fun hh => Except.noConfusion hh)
              | (cases Except.ok.inj h4
                 exact hb2.trans ⟨_, (List.append_assoc _ _ _).symm⟩)
              | (obtain ⟨sv, h7, h8⟩ := okOfBind h4
                 cases Except.ok.inj h8
                 exact hb2.trans ⟨_, (List.append_assoc _ _ _).symm⟩)
        | cons c0 ch1 =>
          have h' : (match assocFind nm va with
            | none => Except.error CgErr.panicked
            | some ta => do
              let st2 ← generateIndexBytecode n fns vs va b c c0 ta.fst
              let opcode ←
                if ta.fst = chs ("int") then Except.ok 0x22
                else if ta.fst = chs ("float") then Except.ok 0x23
                else if ta.fst = chs ("bool") then Except.ok 0x29
                else if ta.fst = chs ("char") then Except.ok 0x2D
                else
                  match ta.fst with
                  | [] => Except.error CgErr.panicked
                  | c' :: _ =>
                    if c' = '[' then do
                      let s ← stripArrLoop n ta.fst
                      Except.ok (if s = chs ("int") then 0x82
                        else if s = chs ("float") then 0x83
                        else if s = chs ("bool") then 0x84
                        else if s = chs ("char") then 0x85
                        else 0x0)
                    else Except.ok 0x0
              Except.ok (st2.fst ++ [opcode] ++ u32be ta.snd, st2.snd)) =
            Except.ok st := h
          split at h'
          · exact absurd h' (fun hh => Except.noConfusion hh)
          · obtain ⟨s2, h3, h4⟩ := okOfBind h'
            have hb2 : b <+: s2.fst := ihX _ _ _ _ _ _ _ _ h3
            try simp only [] at h4
            repeat' split at h4
            all_goals
              first
              | exact absurd h4 (fun hh => Except.noConfusion hh)
              | (cases Except.ok.inj h4
                 exact hb2.trans ⟨_, (List.append_assoc _ _ _).symm⟩)
              | (obtain ⟨sv, h7, h8⟩ := okOfBind h4
                 cases Except.ok.inj h8
                 exact hb2.trans ⟨_, (List.append_assoc _ _ _).symm⟩)
    · -- generateExprBytecodeList
      intro fns vs va b c l st h
      cases l with
      | nil =>
        cases Except.ok.inj h
        exact List.prefix_rfl
      | cons c0 rest =>
        obtain ⟨s1, h1, h2⟩ := okOfBind h
        exact (ihE _ _ _ _ _ _ _ h1).trans (ihEL _ _ _ _ _ _ _ h2)
    · -- generateInputsBytecode
      intro fns vs va b c t st h
      obtain ⟨nd, ch⟩ := t
      cases nd <;> try exact ihIL fns vs va b c ch st h
      case InputList =>
        cases ch with
        | nil => exact absurd h (fun hh => Except.noConfusion hh)
        | cons c0 ch1 =>
          cases ch1 with
          | nil => exact absurd h (fun hh => Except.noConfusion hh)
          | cons c1 ch2 =>
            obtain ⟨s1, h1, h2⟩ := okOfBind h
            exact (ihI _ _ _ _ _ _ _ h1).trans (ihE _ _ _ _ _ _ _ h2)
    · -- generateInputsBytecodeList
      intro fns vs va b c l st h
      cases l with
      | nil =>
        cases Except.ok.inj h
        exact List.prefix_rfl
      | cons c0 rest =>
        obtain ⟨s1, h1, h2⟩ := okOfBind h
        exact (ihI _ _ _ _ _ _ _ h1).trans (ihIL _ _ _ _ _ _ _ h2)
    · -- generateArrBytecode
      intro fns vs va b c t i st h
      obtain ⟨nd, ch⟩ := t
      cases nd <;> try (cases Except.ok.inj h; exact List.prefix_rfl)
      case InputList =>
        cases ch with
        | nil => exact absurd h (fun hh => Except.noConfusion hh)
        | cons c0 ch1 =>
          cases ch1 with
          | nil => exact absurd h (fun hh => Except.noConfusion hh)
          | cons c1 ch2 =>
            obtain ⟨s1, h1, h2⟩ := okOfBind h
            obtain ⟨s2, h3, h4⟩ := okOfBind h2
            cases Except.ok.inj h4
            exact ((ihA _ _ _ _ _ _ _ _ h1).trans
              (ihE _ _ _ _ _ _ _ h3)).trans (List.prefix_append _ _)
    · -- generateIndexBytecode
      intro fns vs va b c t ty st h
      obtain ⟨nd, ch⟩ := t
      cases nd <;> try (cases Except.ok.inj h; exact List.prefix_rfl)
      case Index =>
        cases ch with
        | nil => exact absurd h (fun hh => Except.noConfusion hh)
        | cons c0 ch1 =>
          cases ch1 with
          | nil => exact absurd h (fun hh => Except.noConfusion hh)
          | cons c1 ch2 =>
            obtain ⟨s1, h1, h2⟩ := okOfBind h
            obtain ⟨ls, h3, h4⟩ := okOfBind h2
            try simp only [] at h4
            obtain ⟨s2, h5, h6⟩ := okOfBind h4
            have hb2 := ihX _ _ _ _ _ _ _ _ h5
            have hb : b <+: s2.fst := (ihE _ _ _ _ _ _ _ h1).trans
              (((List.prefix_append _ _).trans
                (List.prefix_append _ _)).trans hb2)
            try simp only [] at h6
            split at h6
            · cases Except.ok.inj h6
              exact hb.trans (List.prefix_append _ _)
            · cases Except.ok.inj h6
              exact hb


/-- A bind of an immediate success reduces to its continuation. -/
theorem bindOkRed {α β : Type} (a : α) (f : α → Except CgErr β) :
    (do let y ← Except.ok a; f y) = f a := rfl

/-- A bind of an immediate error is that error. -/
theorem bindErrRed {α β : Type} (e : CgErr) (f : α → Except CgErr β) :
    (do let y ← (Except.error e : Except CgErr α); f y) =
    Except.error e := rfl

set_option maxHeartbeats 3200000 in
/-- The non-`main` allocation loop only appends to the byte buffer. -/
theorem allocVarsOtherExtend :
    ∀ (l : List (Str × Str)) (fuel : Nat) (b : List Nat)
      (va : List (Str × (Str × Nat))) (addr : Nat)
      (out : List Nat × List (Str × (Str × Nat)) × Nat),
      allocVarsOther fuel l b va addr = Except.ok out → b <+: out.fst := by
  intro l
  induction l with
  | nil =>
    intro fuel b va addr out h
    cases Except.ok.inj h
    exact List.prefix_rfl
  | cons p rest ih =>
    intro fuel b va addr out h
    obtain ⟨varId, varType⟩ := p
    simp only [allocVarsOther, bindOkRed, bindErrRed] at h
    repeat'
      first
      | exact absurd h (fun hh => Except.noConfusion hh)
      | (refine List.IsPrefix.trans ?_ (ih _ _ _ _ _ h)
         first
         | exact List.prefix_rfl
         | exact List.prefix_append _ _
         | exact (List.prefix_append _ _).trans (List.prefix_append _ _)
         | exact ((List.prefix_append _ _).trans
             (List.prefix_append _ _)).trans (List.prefix_append _ _)
         | exact (((List.prefix_append _ _).trans
             (List.prefix_append _ _)).trans
             (List.prefix_append _ _)).trans (List.prefix_append _ _))
      | split at h

set_option maxHeartbeats 1600000 in
/-- The parameter-binding loop only appends to the byte buffer. -/
theorem bindParamsExtend :
    ∀ (l : List (Str × Str)) (va : List (Str × (Str × Nat)))
      (b out : List Nat),
      bindParams l va b = Except.ok out → b <+: out := by
  intro l
  induction l with
  | nil =>
    intro va b out h
    cases Except.ok.inj h
    exact List.prefix_rfl
  | cons p rest ih =>
    intro va b out h
    obtain ⟨paramId, paramType⟩ := p
    simp only [bindParams, bindOkRed, bindErrRed] at h
    repeat'
      first
      | exact absurd h (fun hh => Except.noConfusion hh)
      | (refine List.IsPrefix.trans ?_ (ih _ _ _ h)
         first
         | exact List.prefix_rfl
         | exact List.prefix_append _ _
         | exact (List.prefix_append _ _).trans (List.prefix_append _ _))
      | split at h

/-- The non-`main` function loop of `generate_bytecode` only appends
to the byte buffer handed to it. -/
theorem genOtherFnsExtend :
    ∀ (l : List (Str × TLElement)) (fuel : Nat) (fns : List FuncSig)
      (b : List Nat) (c : List (Nat × Str))
      (va : List (Str × (Str × Nat))) (addr : Nat)
      (fl : List (Str × Nat))
      (out : List Nat × List (Nat × Str) × List (Str × (Str × Nat)) ×
        Nat × List (Str × Nat)),
      genOtherFns fuel fns l b c va addr fl = Except.ok out →
      b <+: out.fst := by
  intro l
  induction l with
  | nil =>
    intro fuel fns b c va addr fl out h
    cases Except.ok.inj h
    exact List.prefix_rfl
  | cons p rest ih =>
    intro fuel fns b c va addr fl out h
    obtain ⟨fnId, e⟩ := p
    simp only [genOtherFns] at h
    split at h
    · exact ih _ _ _ _ _ _ _ _ h
    · split at h
      · obtain ⟨a, h1, h⟩ := okOfBind h
        have hb1 : b <+: a.fst := allocVarsOtherExtend _ _ _ _ _ _ h1
        obtain ⟨b1, h2, h⟩ := okOfBind h
        have hb2 : a.fst <+: b1 := bindParamsExtend _ _ _ _ h2
        obtain ⟨s, h3, h⟩ := okOfBind h
        have hb3 : b1 <+: s.fst := (cgBytesExtend fuel).1 _ _ _ _ _ _ _ h3
        try simp only [] at h
        have hrec := ih _ _ _ _ _ _ _ _ h
        refine ((hb1.trans hb2).trans hb3).trans
          (List.IsPrefix.trans ?_ hrec)
        split
        · exact List.prefix_append _ _
        · exact List.prefix_rfl
      · exact ih _ _ _ _ _ _ _ _ h

/-- The call-fixup pass never changes the file's length. -/
theorem applyCallFixupsLength :
    ∀ (l : List (Nat × Str)) (fl : List (Str × Nat)) (b out : List Nat),
      applyCallFixups l fl b = Except.ok out → out.length = b.length := by
  intro l
  induction l with
  | nil =>
    intro fl b out h
    cases Except.ok.inj h
    rfl
  | cons p rest ih =>
    intro fl b out h
    obtain ⟨callLoc, fname⟩ := p
    simp only [applyCallFixups] at h
    split at h
    · exact absurd h (fun hh => Except.noConfusion hh)
    · rw [ih _ _ _ h]
      exact lengthWrite _ _ _

/-- Claim C8 counterexample: for a node with `main`, `f` and `g`, the
emitted bytes place the five print stubs immediately after `main`'s
section and before the other functions' sections, not after them as the
claim states. -/
theorem C8_print_stub_order_counterexample :
    generateNodeBytecode 100 functionsStub nodeFnsStub =
      Except.ok (mainSecStub ++ stubSecStub ++ fSecStub ++ gSecStub) ∧
    mainSecStub ++ stubSecStub ++ fSecStub ++ gSecStub ≠
      mainSecStub ++ fSecStub ++ gSecStub ++ stubSecStub :=
  ⟨rfl, by decide⟩

/-- Claim C8 (amended): for every node, whenever per-node bytecode
generation succeeds, the buffer handed to the final call-fixup pass is
laid out as `main`'s section (allocation preamble, parameter binding,
body, trailing `ret.void` for a void `main`), immediately followed by
the twelve bytes of the five print built-in stubs, followed by
everything the non-`main` function loop emitted — the stubs sit between
`main` and the other user functions, not after them — and the fixup
pass, which produced the final output, preserves the buffer's
length. -/
theorem C8_print_stub_order_amended :
    ∀ (fuel : Nat) (functions : List FuncSig)
      (nodeFns : List (Str × TLElement)) (out : List Nat),
      generateNodeBytecode fuel functions nodeFns = Except.ok out →
      ∃ st res othersApp funcLocs0,
        mainSection fuel functions nodeFns = Except.ok st ∧
        genOtherFns fuel functions nodeFns (st.fst ++ stubSecStub)
          st.snd.fst st.snd.snd.fst st.snd.snd.snd.fst funcLocs0 =
          Except.ok res ∧
        res.fst = st.fst ++ stubSecStub ++ othersApp ∧
        applyCallFixups res.snd.fst res.snd.snd.snd.snd res.fst =
          Except.ok out ∧
        out.length = res.fst.length := by
  intro fuel functions nodeFns out h
  obtain ⟨st, h1, h⟩ := okOfBind h
  try simp only [] at h
  obtain ⟨res, h3, h4⟩ := okOfBind h
  have hbytes : st.fst ++ [0x90, 0x64] ++ [0x91, 0x64] ++ [0x92, 0x64] ++
      [0x93, 0x64] ++ [0x15, 0xA, 0x93, 0x64] = st.fst ++ stubSecStub := by
    simp [stubSecStub, List.append_assoc]
  rw [hbytes] at h3
  obtain ⟨othersApp, happ⟩ :=
    genOtherFnsExtend _ _ _ _ _ _ _ _ _ h3
  exact ⟨st, res, othersApp, _, h1, h3, happ.symm, h4,
    applyCallFixupsLength _ _ _ _ h4⟩

/-- Witness for the amended claim C8 at the concrete three-function
node: `main`'s section is the single `ret.void` byte and the sections
of `f` and `g` follow the stub block. -/
theorem C8_print_stub_order_amended_witness :
    ∃ st res othersApp funcLocs0,
      mainSection 100 functionsStub nodeFnsStub = Except.ok st ∧
      genOtherFns 100 functionsStub nodeFnsStub (st.fst ++ stubSecStub)
        st.snd.fst st.snd.snd.fst st.snd.snd.snd.fst funcLocs0 =
        Except.ok res ∧
      res.fst = st.fst ++ stubSecStub ++ othersApp ∧
      applyCallFixups res.snd.fst res.snd.snd.snd.snd res.fst =
        Except.ok (mainSecStub ++ stubSecStub ++ fSecStub ++ gSecStub) ∧
      (mainSecStub ++ stubSecStub ++ fSecStub ++ gSecStub).length =
        res.fst.length :=
  C8_print_stub_order_amended 100 functionsStub nodeFnsStub
    (mainSecStub ++ stubSecStub ++ fSecStub ++ gSecStub) rfl

/-- Claim C9: the lexer's character buffer drops every end-of-line
character, so the lines `ab` and `cd` produce the buffer `abcd` and a
single identifier token `abcd` (followed by the no-more-tokens signal)
instead of two identifier tokens. -/
theorem C9_newline_merges_tokens :
    lexerNewChars [chs ("ab"), chs ("cd")] = chs ("abcd") ∧
    nextToken (chs ("abcd")) 0 =
      (LexOut.tok (Token.ID (chs ("abcd"))), 4) ∧
    nextToken (chs ("abcd")) 4 = (LexOut.noTok, 4) := ⟨rfl, rfl, rfl⟩

/-- Claim C10: an integer literal whose value exceeds `2^31 - 1` makes
`next_token` panic (the `i32` parse is unwrapped with `expect`), while
the largest representable literal lexes normally. -/
theorem C10_overflow_int_literal_panics :
    nextToken (chs ("2147483648 ")) 0 = (LexOut.panicked, 0) ∧
    nextToken (chs ("2147483647 ")) 0 =
      (LexOut.tok (Token.Integer 2147483647), 10) := ⟨rfl, rfl⟩
